import Mathlib

/-!
# ROS2SubscribeRobotCmdNode

A shallow embedding of the OmniGraph node `ROS2SubscribeRobotCmdNode`
(`source/extensions/omni.custom.cpp.ogn_ros/plugins/nodes/ROS2SubscribeRobotCmdNode.cpp`)
and theorems about its configuration check, its QoS table, its message decoder, its
poll cycle, its life cycle (bind, teardown, reset, release), the invariants of its
reachable states and its agreement with the second variant of the node
(`source/extensions/omni.custom.sub.cpp.omnigraph_node_ros`).

Conventions of the embedding

* The C++ type `double` is a type parameter `D` with the two operations the node
  needs (`Float64`): the literal `0.0` and the conversion of a time stamp.  The
  node never computes with the values it copies, so every theorem holds for
  every interpretation of `double`.
* `static_cast<double>` of a message field keeps the value; message fields are
  carried at type `D`.
* A message sequence (`data`, `size`) and an output array are lists; `size` is
  the length.  A read or write outside an array is undefined behaviour in C++
  and is `none` here, so functions that index arrays return an `Option`.
* `db.stringToToken` interns the C string it is given; a token is modelled by that
  string, which ends before the first NUL of its argument (`c_str`).
* The calls into `rcl` are recorded in a list (`Call`); their return codes, and
  the message that `rcl_take` stores, are inputs of a cycle (`Rcl`).
  `printf` lines are left out.
-/

namespace ROS2SubscribeRobotCmdNode

/-! ## Data model -/

/-- The operations on `double` that the node uses: the literal `0.0` (the zero of `D`)
and `static_cast<double>(sec) + static_cast<double>(nanosec) * 1e-9` (line 202). -/
class Float64 (D : Type) extends Zero D where
  ofStamp : Int → Nat → D

/-- The return code `RCL_RET_OK` of rcl (`rcl/types.h`). -/
def RCL_RET_OK : Int := 0

/-- The return code `RCL_RET_SUBSCRIPTION_TAKE_FAILED` of rcl (`rcl/types.h`). -/
def RCL_RET_SUBSCRIPTION_TAKE_FAILED : Int := 401

/-- The values of `rmw_qos_reliability_policy_t` that the node assigns. -/
inductive Reliability where
  | RELIABLE
  | BEST_EFFORT
  deriving DecidableEq

/-- The values of `rmw_qos_durability_policy_t` that the node assigns. -/
inductive Durability where
  | VOLATILE
  | TRANSIENT_LOCAL
  deriving DecidableEq

/-- The three members of `state.sub_options.qos` that compute assigns
(lines 137-151); `depth` is a `size_t`. -/
structure QoS where
  reliability : Reliability
  durability : Durability
  depth : Nat
  deriving DecidableEq

/-- One call into rcl, with the arguments that depend on the inputs of the node. -/
inductive Call where
  | rcl_subscription_fini
  | rcl_node_fini
  | rcl_init_options_init
  | rcl_init
  | rcl_node_init (node_name full_namespace : String)
  | rcl_subscription_init (topic : String) (qos : QoS)
  | rcl_take
  | rcl_init_options_fini
  | rcl_shutdown
  deriving DecidableEq

/-- A three-component vector: `geometry_msgs/Vector3` (x, y, z) on the message side,
a `double[3]` output (components 0, 1, 2) on the node side. -/
structure Vec3 (D : Type) where
  x : D
  y : D
  z : D
  deriving DecidableEq

/-- The member `chassis_cmd` of the message (`geometry_msgs/Twist`). -/
structure Twist (D : Type) where
  linear : Vec3 D
  angular : Vec3 D
  deriving DecidableEq

/-- The member `header.stamp` of the message: `int32 sec`, `uint32 nanosec`. -/
structure Stamp where
  sec : Int
  nanosec : Nat
  deriving DecidableEq

/-- One element of `arm_cmd.points`: the three sequences compute reads from it. -/
structure TrajectoryPoint (D : Type) where
  positions : List D
  velocities : List D
  effort : List D
  deriving DecidableEq

/-- The member `arm_cmd` of the message. -/
structure ArmCmd (D : Type) where
  joint_names : List String
  points : List (TrajectoryPoint D)
  deriving DecidableEq

/-- Modelled from the spec: the header `mm_msgs/msg/robot_cmd.h` that declares
`mm_msgs__msg__RobotCmd` is not among the sources.  The record holds exactly the
members that compute reads from `ros_msg` (lines 199-236). -/
structure RobotCmd (D : Type) where
  stamp : Stamp
  yaw : D
  gripper_cmd : D
  chassis_cmd : Twist D
  arm_cmd : ArmCmd D
  deriving DecidableEq

/-- The inputs of the node, read at lines 45-49.  `queueSize` is a C `int`,
`context` a `uint64_t`. -/
structure Inputs where
  topicName : String
  nodeNamespace : String
  qosProfile : String
  queueSize : Int
  context : Nat
  deriving DecidableEq

/-- The output attributes of the node (`db.outputs`).  A call of the node changes the
outputs it writes and no other.  What the host does with the trigger `execOut` between
two calls is not in the sources (see `hostConsumesTrigger`). -/
structure Outputs (D : Type) where
  yaw : D
  gripperCmd : D
  timestamp : D
  chassisLinearVel : Vec3 D
  chassisAngularVel : Vec3 D
  armJointNames : List String
  armPositionCmd : List D
  armVelocityCmd : List D
  armEffortCmd : List D
  messageReceived : Bool
  execOut : Nat
  deriving DecidableEq

/-- The data members of the class that the node reads back (lines 494-503), with
their initial values.  The rcl handles are owned by rcl and appear only through
the calls made on them. -/
structure NodeState where
  sub_created : Bool := false
  message_received : Bool := false
  context_initialized : Bool := false
  last_topic_name : String := ""
  last_namespace : String := ""
  last_qos_profile : String := ""
  last_queue_size : Int := 10
  last_context : Nat := 0
  deriving DecidableEq

/-- What rcl answers during one call of compute, reset or releaseInstance: the return
code of each call the node may make, and the message `rcl_take` stores in `ros_msg`.
The node only prints the return codes of the finalize and shutdown calls, so no
definition reads those four. -/
structure Rcl (D : Type) where
  subscription_fini : Int
  node_fini : Int
  init_options_init : Int
  init : Int
  node_init : Int
  subscription_init : Int
  take : Int
  ros_msg : RobotCmd D
  init_options_fini : Int
  shutdown : Int

/-- The result of one call of compute: the returned `bool`, the state and the outputs
it leaves, and the rcl calls it made, in order. -/
structure ComputeResult (D : Type) where
  ret : Bool
  state : NodeState
  outputs : Outputs D
  calls : List Call

/-! ## Arrays and loops -/

/-- The read `data[i]`. -/
def readAt {α : Type} (data : List α) (i : Nat) : Option α :=
  data[i]?

/-- The write `arr[i] = v`. -/
def writeAt {α : Type} (arr : List α) (i : Nat) (v : α) : Option (List α) :=
  if i < arr.length then some (arr.set i v) else none

/-- The call `arr.resize(n)`: the first `min n arr.length` elements are kept and the
new elements, if any, are `fill`. -/
def resize {α : Type} (arr : List α) (n : Nat) (fill : α) : List α :=
  arr.take n ++ List.replicate (n - arr.length) fill

/-- Runs `body i`, `body (i+1)`, ... for `n` consecutive indices. -/
def iterate {σ : Type} (body : Nat → σ → Option σ) : Nat → Nat → σ → Option σ
  | 0, _, s => some s
  | n + 1, i, s => (body i s).bind (iterate body n (i + 1))

/-- The loop `for (size_t i = lo; i < hi; i++) body`, for a body that changes neither
`i` nor `hi`: it runs for the `hi - lo` indices from `lo` on (none when `hi ≤ lo`). -/
def forLoop {σ : Type} (lo hi : Nat) (body : Nat → σ → Option σ) (s : σ) : Option σ :=
  iterate body (hi - lo) lo s

/-! ## The configuration check and the QoS table -/

/-- Lines 51-60: the value of `need_recreate` after the check. -/
def need_recreate (state : NodeState) (inputs : Inputs) : Bool :=
  if state.sub_created then
    if inputs.topicName ≠ state.last_topic_name ∨
       inputs.nodeNamespace ≠ state.last_namespace ∨
       inputs.qosProfile ≠ state.last_qos_profile ∨
       inputs.queueSize ≠ state.last_queue_size ∨
       inputs.context ≠ state.last_context then
      true
    else
      false
  else
    false

/-- Lines 137-151: reliability and durability from the profile name, and
`depth = static_cast<size_t>(current_queue_size)` on a 64-bit `size_t`. -/
def sub_options_qos (qos_profile : String) (current_queue_size : Int) : QoS :=
  let depth := (current_queue_size % 2 ^ 64).toNat
  if qos_profile = "sensor_data" then
    { reliability := .BEST_EFFORT, durability := .VOLATILE, depth := depth }
  else if qos_profile = "parameter_events" then
    { reliability := .RELIABLE, durability := .VOLATILE, depth := depth }
  else if qos_profile = "system_default" then
    { reliability := .BEST_EFFORT, durability := .VOLATILE, depth := depth }
  else
    { reliability := .RELIABLE, durability := .VOLATILE, depth := depth }

/-! ## The message decoder -/

/-- Lines 228-237: the number of joints, from the joint names of the message and
its latest trajectory point. -/
def num_joints {D : Type} (joint_names : List String) (latest_point : TrajectoryPoint D) : Nat :=
  if joint_names.length > 0 then
    joint_names.length
  else if latest_point.positions.length > 0 then
    latest_point.positions.length
  else if latest_point.velocities.length > 0 then
    latest_point.velocities.length
  else if latest_point.effort.length > 0 then
    latest_point.effort.length
  else
    0

/-- The name `"joint_" + std::to_string(i)` of lines 258 and 265. -/
def default_name (i : Nat) : String :=
  "joint_" ++ toString i

/-- The string that C++ reads from a `const char*`: the characters before the first
NUL.  The constructor `std::string(const char*)` of line 252 and
`db.stringToToken(const char*)` of lines 253, 259 and 266 read their argument this
way; the `size` member of a message string is not read. -/
def c_str (s : String) : String :=
  String.mk (s.data.takeWhile (fun c => c != Char.ofNat 0))

/-- Lines 247-268: the joint names written into `armJointNames`.  A name of the
message is read as a C string into `joint_name`, and every token is made from the C
string of a `std::string`. -/
def extractJointNames (joint_names : List String) (num_joints : Nat)
    (armJointNames : List String) : Option (List String) :=
  if joint_names.length > 0 then
    let name_count := min joint_names.length num_joints
    (forLoop 0 name_count
        (fun i arr => (readAt joint_names i).bind (fun data =>
          let joint_name := c_str data
          writeAt arr i (c_str joint_name)))
        armJointNames).bind
      (forLoop name_count num_joints (fun i arr => writeAt arr i (c_str (default_name i))))
  else
    forLoop 0 num_joints (fun i arr => writeAt arr i (c_str (default_name i))) armJointNames

/-- Lines 271-292 for the positions, 295-316 for the velocities and 319-340 for the
effort: the same block three times, on the sequence `data` of the latest point and
the output array `armCmd`. -/
def extractCmd {D : Type} [Zero D] (data : List D) (num_joints : Nat)
    (armCmd : List D) : Option (List D) :=
  if data.length > 0 then
    let size := min data.length num_joints
    (forLoop 0 size
        (fun i arr => (readAt data i).bind (fun v => writeAt arr i v))
        armCmd).bind
      (forLoop size num_joints (fun i arr => writeAt arr i 0))
  else
    forLoop 0 num_joints (fun i arr => writeAt arr i 0) armCmd

/-- Lines 220-366: the arm trajectory command.  New elements of a resized array hold
the empty token and `0.0`. -/
def processArmCmd {D : Type} [Zero D] (ros_msg : RobotCmd D) (outputs : Outputs D) :
    Option (Outputs D) :=
  if ros_msg.arm_cmd.points.length > 0 then
    let latest_point_index := ros_msg.arm_cmd.points.length - 1
    (readAt ros_msg.arm_cmd.points latest_point_index).bind fun latest_point =>
    let num_joints := num_joints ros_msg.arm_cmd.joint_names latest_point
    if num_joints > 0 then
      let outputs := { outputs with
        armJointNames := resize outputs.armJointNames num_joints ""
        armPositionCmd := resize outputs.armPositionCmd num_joints 0
        armVelocityCmd := resize outputs.armVelocityCmd num_joints 0
        armEffortCmd := resize outputs.armEffortCmd num_joints 0 }
      (extractJointNames ros_msg.arm_cmd.joint_names num_joints outputs.armJointNames).bind
        fun armJointNames =>
      (extractCmd latest_point.positions num_joints outputs.armPositionCmd).bind
        fun armPositionCmd =>
      (extractCmd latest_point.velocities num_joints outputs.armVelocityCmd).bind
        fun armVelocityCmd =>
      (extractCmd latest_point.effort num_joints outputs.armEffortCmd).bind
        fun armEffortCmd =>
      some { outputs with
        armJointNames := armJointNames
        armPositionCmd := armPositionCmd
        armVelocityCmd := armVelocityCmd
        armEffortCmd := armEffortCmd }
    else
      some outputs
  else
    some { outputs with
      armJointNames := resize outputs.armJointNames 0 ""
      armPositionCmd := resize outputs.armPositionCmd 0 0
      armVelocityCmd := resize outputs.armVelocityCmd 0 0
      armEffortCmd := resize outputs.armEffortCmd 0 0 }

/-- Lines 199-366: the outputs written when a message was received. -/
def decode {D : Type} [Float64 D] (ros_msg : RobotCmd D) (outputs : Outputs D) :
    Option (Outputs D) :=
  let outputs := { outputs with
    yaw := ros_msg.yaw
    gripperCmd := ros_msg.gripper_cmd
    messageReceived := true
    timestamp := Float64.ofStamp ros_msg.stamp.sec ros_msg.stamp.nanosec
    chassisLinearVel :=
      { x := ros_msg.chassis_cmd.linear.x
        y := ros_msg.chassis_cmd.linear.y
        z := ros_msg.chassis_cmd.linear.z }
    chassisAngularVel :=
      { x := ros_msg.chassis_cmd.angular.x
        y := ros_msg.chassis_cmd.angular.y
        z := ros_msg.chassis_cmd.angular.z }
    execOut := 1 }
  processArmCmd ros_msg outputs

/-! ## The node: compute, releaseInstance, reset -/

/-- Lines 63-74: the subscription and the node are finalized, whatever the two calls
return, and `sub_created` is cleared. -/
def teardown (state : NodeState) : NodeState × List Call :=
  ({ state with sub_created := false }, [Call.rcl_subscription_fini, Call.rcl_node_fini])

/-- Lines 87-110: the context is created when it is not initialized yet.  The
first component is false when compute returns false here. -/
def initContext {D : Type} (state : NodeState) (rcl : Rcl D) : Bool × NodeState × List Call :=
  if ¬ state.context_initialized then
    if rcl.init_options_init ≠ RCL_RET_OK then
      (false, state, [Call.rcl_init_options_init])
    else if rcl.init ≠ RCL_RET_OK then
      (false, state, [Call.rcl_init_options_init, Call.rcl_init])
    else
      (true, { state with context_initialized := true },
        [Call.rcl_init_options_init, Call.rcl_init])
  else
    (true, state, [])

/-- Lines 112-168: the node and the subscription are created.  The first component
is false when compute returns false here. -/
def createSubscriber {D : Type} (state : NodeState) (inputs : Inputs) (rcl : Rcl D) :
    Bool × NodeState × List Call :=
  let full_namespace := if inputs.nodeNamespace = "" then "" else "/" ++ inputs.nodeNamespace
  let node_name := "robot_cmd_subscriber"
  if rcl.node_init ≠ RCL_RET_OK then
    (false, state, [Call.rcl_node_init node_name full_namespace])
  else
    let qos := sub_options_qos inputs.qosProfile inputs.queueSize
    if RCL_RET_OK ≠ rcl.subscription_init then
      (false, state, [Call.rcl_node_init node_name full_namespace,
        Call.rcl_subscription_init inputs.topicName qos])
    else
      (true, { state with sub_created := true, message_received := false },
        [Call.rcl_node_init node_name full_namespace,
          Call.rcl_subscription_init inputs.topicName qos])

/-- Lines 80-176: the body of `if(!state.sub_created || need_recreate)`.  The first
component is false when compute returns false inside it. -/
def bindSubscriber {D : Type} (state : NodeState) (inputs : Inputs) (rcl : Rcl D) :
    Bool × NodeState × List Call :=
  let state := { state with
    last_topic_name := inputs.topicName
    last_namespace := inputs.nodeNamespace
    last_qos_profile := inputs.qosProfile
    last_queue_size := inputs.queueSize
    last_context := inputs.context }
  match initContext state rcl with
  | (false, state, calls) => (false, state, calls)
  | (true, state, calls) =>
    match createSubscriber state inputs rcl with
    | (ok, state, calls2) => (ok, state, calls ++ calls2)

/-- Lines 179-385: one message is taken and, when one was received, decoded. -/
def takeMessage {D : Type} [Float64 D] (state : NodeState) (rcl : Rcl D) (outputs : Outputs D) :
    Option (NodeState × Outputs D) :=
  if rcl.take = RCL_RET_OK then
    (decode rcl.ros_msg outputs).map
      (fun outputs => ({ state with message_received := true }, outputs))
  else if rcl.take = RCL_RET_SUBSCRIPTION_TAKE_FAILED then
    some (state, { outputs with messageReceived := false })
  else
    some (state, { outputs with messageReceived := false })

/-- Lines 51-76: the check, and the teardown when it asks for a recreation. -/
def checkRecreate (state : NodeState) (inputs : Inputs) : NodeState × List Call :=
  if need_recreate state inputs then teardown state else (state, [])

/-- Lines 40-386: `compute`. -/
def compute {D : Type} [Float64 D] (state : NodeState) (inputs : Inputs) (rcl : Rcl D)
    (outputs : Outputs D) : Option (ComputeResult D) :=
  let need_recreate := need_recreate state inputs
  let (state, calls) := checkRecreate state inputs
  let (ok, state, calls) :=
    if ¬ state.sub_created ∨ need_recreate then
      match bindSubscriber state inputs rcl with
      | (ok, state, calls2) => (ok, state, calls ++ calls2)
    else
      (true, state, calls)
  if ok then
    (takeMessage state rcl outputs).map fun (state, outputs) =>
      { ret := true, state := state, outputs := outputs, calls := calls ++ [Call.rcl_take] }
  else
    some { ret := false, state := state, outputs := outputs, calls := calls }

/-- Lines 388-425: `releaseInstance`. -/
def releaseInstance (state : NodeState) : NodeState × List Call :=
  let (state, calls) := if state.sub_created then teardown state else (state, [])
  if state.context_initialized then
    ({ state with context_initialized := false },
      calls ++ [Call.rcl_init_options_fini, Call.rcl_shutdown])
  else
    (state, calls)

/-- Lines 427-483: `reset`. -/
def reset {D : Type} [Zero D] (state : NodeState) (outputs : Outputs D) :
    NodeState × Outputs D × List Call :=
  let outputs := { outputs with
    chassisLinearVel := { x := 0, y := 0, z := 0 }
    chassisAngularVel := { x := 0, y := 0, z := 0 }
    armJointNames := resize outputs.armJointNames 0 ""
    armPositionCmd := resize outputs.armPositionCmd 0 0
    armVelocityCmd := resize outputs.armVelocityCmd 0 0
    armEffortCmd := resize outputs.armEffortCmd 0 0
    yaw := 0
    gripperCmd := 0
    timestamp := 0
    messageReceived := false }
  let (state, calls) := if state.sub_created then teardown state else (state, [])
  ({ state with message_received := false }, outputs, calls)

/-- Exact rational arithmetic as an interpretation of `double`, for the
evaluation of the node on concrete messages. -/
instance : Float64 ℚ where
  ofStamp sec nanosec := (sec : ℚ) + (nanosec : ℚ) * (1 / 1000000000)

/-! ## The joint count in the words of the specification -/

/-- The first non-zero value of a list of lengths, and 0 when there is none
(rule 4 of the decoder in the specification). -/
def firstNonZero (lengths : List Nat) : Nat :=
  (lengths.find? (fun n => n ≠ 0)).getD 0

/-- The joint count of a raw message as the specification words it: 0 when the point
sequence is empty, and otherwise the first non-zero length among the joint names and
the positions, velocities and effort of the last point. -/
def specNumJoints {D : Type} (ros_msg : RobotCmd D) : Nat :=
  match ros_msg.arm_cmd.points.getLast? with
  | none => 0
  | some last =>
    firstNonZero [ros_msg.arm_cmd.joint_names.length, last.positions.length,
      last.velocities.length, last.effort.length]

/-! ## Concrete inputs -/

/-- The outputs before any message: zero values and empty arrays. -/
def freshOutputs : Outputs ℚ :=
  { yaw := 0, gripperCmd := 0, timestamp := 0
    chassisLinearVel := { x := 0, y := 0, z := 0 }
    chassisAngularVel := { x := 0, y := 0, z := 0 }
    armJointNames := [], armPositionCmd := [], armVelocityCmd := [], armEffortCmd := []
    messageReceived := false, execOut := 0 }

/-- The outputs after an earlier message that commanded one joint. -/
def staleOutputs : Outputs ℚ :=
  { yaw := 5, gripperCmd := 6, timestamp := 7
    chassisLinearVel := { x := 1, y := 1, z := 1 }
    chassisAngularVel := { x := 2, y := 2, z := 2 }
    armJointNames := ["old"], armPositionCmd := [7], armVelocityCmd := [8], armEffortCmd := [9]
    messageReceived := true, execOut := 1 }

/-- A message with the given joint names and trajectory points. -/
def sampleMsg (joint_names : List String) (points : List (TrajectoryPoint ℚ)) : RobotCmd ℚ :=
  { stamp := { sec := 1, nanosec := 5 }, yaw := 2, gripper_cmd := 3
    chassis_cmd := { linear := { x := 1, y := 2, z := 3 }, angular := { x := 4, y := 5, z := 6 } }
    arm_cmd := { joint_names := joint_names, points := points } }

/-- The inputs of a node that listens on `/robot_cmd` with the default profile. -/
def sampleInputs : Inputs :=
  { topicName := "/robot_cmd", nodeNamespace := "", qosProfile := "default"
    queueSize := 10, context := 0 }

/-- The state of a node bound with `sampleInputs`. -/
def boundState : NodeState :=
  { sub_created := true, message_received := false, context_initialized := true
    last_topic_name := "/robot_cmd", last_namespace := "", last_qos_profile := "default"
    last_queue_size := 10, last_context := 0 }

/-- An rcl whose calls all succeed, apart from `rcl_take`, which returns `take`
and stores `ros_msg`. -/
def sampleRcl (take : Int) (ros_msg : RobotCmd ℚ) : Rcl ℚ :=
  { subscription_fini := 0, node_fini := 0, init_options_init := 0, init := 0
    node_init := 0, subscription_init := 0, take := take, ros_msg := ros_msg
    init_options_fini := 0, shutdown := 0 }

/-- A message with three trajectory points and no joint names; the last point has two
velocities and one effort value. -/
def threePointMsg : RobotCmd ℚ :=
  sampleMsg [] [⟨[1], [], []⟩, ⟨[], [], []⟩, ⟨[], [4, 5], [6]⟩]

/-- The padding scenario: two names, one position, no velocities, no effort. -/
def paddingMsg : RobotCmd ℚ :=
  sampleMsg ["a", "b"] [⟨[1], [], []⟩]

/-- The scenario without names: three positions. -/
def noNamesMsg : RobotCmd ℚ :=
  sampleMsg [] [⟨[1, 2, 3], [], []⟩]

/-- A message with one trajectory point and nothing in it. -/
def zeroJointMsg : RobotCmd ℚ :=
  sampleMsg [] [⟨[], [], []⟩]

/-- A message without trajectory points. -/
def noPointsMsg : RobotCmd ℚ :=
  sampleMsg ["a"] []

/-- The state of a node before its first cycle. -/
def unboundState : NodeState :=
  { sub_created := false, message_received := false, context_initialized := false
    last_topic_name := "", last_namespace := "", last_qos_profile := ""
    last_queue_size := 10, last_context := 0 }

/-- An rcl whose node creation fails with code 1; a message is waiting. -/
def nodeInitFails : Rcl ℚ :=
  { subscription_fini := 0, node_fini := 0, init_options_init := 0, init := 0
    node_init := 1, subscription_init := 0, take := 0, ros_msg := paddingMsg
    init_options_fini := 0, shutdown := 0 }

/-- The inputs of `sampleInputs` with another topic. -/
def changedInputs : Inputs :=
  { topicName := "/other_cmd", nodeNamespace := "", qosProfile := "default"
    queueSize := 10, context := 0 }

/-! ## The second variant of the node

`source/extensions/omni.custom.sub.cpp.omnigraph_node_ros/plugins/nodes/ROS2SubscribeRobotCmdNode.cpp`,
whose C++ namespace is `omni::example::cpp::omnigraph_node_ros`.  It has `compute` and
`releaseInstance` and no `reset`.  The line numbers below are those of that file.  It
indexes no array, so its functions return their result outright. -/

namespace omnigraph_node_ros

/-- Lines 44-53: the value of `need_recreate` after the check. -/
def need_recreate (state : NodeState) (inputs : Inputs) : Bool :=
  if state.sub_created then
    if inputs.topicName ≠ state.last_topic_name ∨
       inputs.nodeNamespace ≠ state.last_namespace ∨
       inputs.qosProfile ≠ state.last_qos_profile ∨
       inputs.queueSize ≠ state.last_queue_size ∨
       inputs.context ≠ state.last_context then
      true
    else
      false
  else
    false

/-- Lines 130-144: reliability and durability from the profile name, and
`depth = static_cast<size_t>(current_queue_size)` on a 64-bit `size_t`. -/
def sub_options_qos (qos_profile : String) (current_queue_size : Int) : QoS :=
  let depth := (current_queue_size % 2 ^ 64).toNat
  if qos_profile = "sensor_data" then
    { reliability := .BEST_EFFORT, durability := .VOLATILE, depth := depth }
  else if qos_profile = "parameter_events" then
    { reliability := .RELIABLE, durability := .VOLATILE, depth := depth }
  else if qos_profile = "system_default" then
    { reliability := .BEST_EFFORT, durability := .VOLATILE, depth := depth }
  else
    { reliability := .RELIABLE, durability := .VOLATILE, depth := depth }

/-- Lines 56-67: the subscription and the node are finalized, whatever the two calls
return, and `sub_created` is cleared. -/
def teardown (state : NodeState) : NodeState × List Call :=
  ({ state with sub_created := false }, [Call.rcl_subscription_fini, Call.rcl_node_fini])

/-- Lines 44-69: the check, and the teardown when it asks for a recreation. -/
def checkRecreate (state : NodeState) (inputs : Inputs) : NodeState × List Call :=
  if need_recreate state inputs then teardown state else (state, [])

/-- Lines 80-103: the context is created when it is not initialized yet.  The
first component is false when compute returns false here. -/
def initContext {D : Type} (state : NodeState) (rcl : Rcl D) : Bool × NodeState × List Call :=
  if ¬ state.context_initialized then
    if rcl.init_options_init ≠ RCL_RET_OK then
      (false, state, [Call.rcl_init_options_init])
    else if rcl.init ≠ RCL_RET_OK then
      (false, state, [Call.rcl_init_options_init, Call.rcl_init])
    else
      (true, { state with context_initialized := true },
        [Call.rcl_init_options_init, Call.rcl_init])
  else
    (true, state, [])

/-- Lines 105-161: the node and the subscription are created.  The first component
is false when compute returns false here. -/
def createSubscriber {D : Type} (state : NodeState) (inputs : Inputs) (rcl : Rcl D) :
    Bool × NodeState × List Call :=
  let full_namespace := if inputs.nodeNamespace = "" then "" else "/" ++ inputs.nodeNamespace
  let node_name := "robot_cmd_subscriber"
  if rcl.node_init ≠ RCL_RET_OK then
    (false, state, [Call.rcl_node_init node_name full_namespace])
  else
    let qos := sub_options_qos inputs.qosProfile inputs.queueSize
    if RCL_RET_OK ≠ rcl.subscription_init then
      (false, state, [Call.rcl_node_init node_name full_namespace,
        Call.rcl_subscription_init inputs.topicName qos])
    else
      (true, { state with sub_created := true, message_received := false },
        [Call.rcl_node_init node_name full_namespace,
          Call.rcl_subscription_init inputs.topicName qos])

/-- Lines 73-169: the body of `if(!state.sub_created || need_recreate)`.  The first
component is false when compute returns false inside it. -/
def bindSubscriber {D : Type} (state : NodeState) (inputs : Inputs) (rcl : Rcl D) :
    Bool × NodeState × List Call :=
  let state := { state with
    last_topic_name := inputs.topicName
    last_namespace := inputs.nodeNamespace
    last_qos_profile := inputs.qosProfile
    last_queue_size := inputs.queueSize
    last_context := inputs.context }
  match initContext state rcl with
  | (false, state, calls) => (false, state, calls)
  | (true, state, calls) =>
    match createSubscriber state inputs rcl with
    | (ok, state, calls2) => (ok, state, calls ++ calls2)

/-- Lines 192-211: the outputs written when a message was received.  The four arm
outputs are not written. -/
def decode {D : Type} [Float64 D] (ros_msg : RobotCmd D) (outputs : Outputs D) : Outputs D :=
  { outputs with
    yaw := ros_msg.yaw
    gripperCmd := ros_msg.gripper_cmd
    messageReceived := true
    timestamp := Float64.ofStamp ros_msg.stamp.sec ros_msg.stamp.nanosec
    chassisLinearVel :=
      { x := ros_msg.chassis_cmd.linear.x
        y := ros_msg.chassis_cmd.linear.y
        z := ros_msg.chassis_cmd.linear.z }
    chassisAngularVel :=
      { x := ros_msg.chassis_cmd.angular.x
        y := ros_msg.chassis_cmd.angular.y
        z := ros_msg.chassis_cmd.angular.z }
    execOut := 1 }

/-- Lines 172-232: one message is taken and, when one was received, decoded. -/
def takeMessage {D : Type} [Float64 D] (state : NodeState) (rcl : Rcl D) (outputs : Outputs D) :
    NodeState × Outputs D :=
  if rcl.take = RCL_RET_OK then
    ({ state with message_received := true }, decode rcl.ros_msg outputs)
  else if rcl.take = RCL_RET_SUBSCRIPTION_TAKE_FAILED then
    (state, { outputs with messageReceived := false })
  else
    (state, { outputs with messageReceived := false })

/-- Lines 33-236: `compute`. -/
def compute {D : Type} [Float64 D] (state : NodeState) (inputs : Inputs) (rcl : Rcl D)
    (outputs : Outputs D) : ComputeResult D :=
  let need_recreate := need_recreate state inputs
  let (state, calls) := checkRecreate state inputs
  let (ok, state, calls) :=
    if ¬ state.sub_created ∨ need_recreate then
      match bindSubscriber state inputs rcl with
      | (ok, state, calls2) => (ok, state, calls ++ calls2)
    else
      (true, state, calls)
  if ok then
    match takeMessage state rcl outputs with
    | (state, outputs) =>
      { ret := true, state := state, outputs := outputs, calls := calls ++ [Call.rcl_take] }
  else
    { ret := false, state := state, outputs := outputs, calls := calls }

/-- Lines 238-275: `releaseInstance`. -/
def releaseInstance (state : NodeState) : NodeState × List Call :=
  let (state, calls) := if state.sub_created then teardown state else (state, [])
  if state.context_initialized then
    ({ state with context_initialized := false },
      calls ++ [Call.rcl_init_options_fini, Call.rcl_shutdown])
  else
    (state, calls)

end omnigraph_node_ros

/-! ## The host and the trigger -/

/-- Modelled from the spec: the host graph that calls the node and owns its execution
attribute `execOut` is not among the sources.  The specification calls `execOut` a
one-shot trigger, emitted only on successful receipt of a message: the host consumes
the trigger that a call emitted, so it is not active when the host next calls the
node.  The value 0 is the state of a trigger that is not active; the node writes 1
(line 218). -/
def hostConsumesTrigger {D : Type} (outputs : Outputs D) : Outputs D :=
  { outputs with execOut := 0 }

/-! ## Reachable states and predicates on outputs -/

/-- The states and outputs of a node of the first variant after any sequence of calls
of `compute`, `reset` and `releaseInstance`, with any inputs and any answers of rcl.
The node starts in the state of the member initializers (lines 494-503) with empty arm
outputs; `releaseInstance` does not touch the outputs. -/
inductive Reachable {D : Type} [Float64 D] : NodeState → Outputs D → Prop
  | init (outputs : Outputs D) (h1 : outputs.armJointNames = [])
      (h2 : outputs.armPositionCmd = []) (h3 : outputs.armVelocityCmd = [])
      (h4 : outputs.armEffortCmd = []) : Reachable {} outputs
  | afterCompute {state : NodeState} {outputs : Outputs D} (h : Reachable state outputs)
      (inputs : Inputs) (rcl : Rcl D) (r : ComputeResult D)
      (hr : compute state inputs rcl outputs = some r) : Reachable r.state r.outputs
  | afterReset {state : NodeState} {outputs : Outputs D} (h : Reachable state outputs) :
      Reachable (reset state outputs).1 (reset state outputs).2.1
  | afterRelease {state : NodeState} {outputs : Outputs D} (h : Reachable state outputs) :
      Reachable (releaseInstance state).1 outputs

/-- The four arm outputs have the same length. -/
def ArmLengthsEqual {D : Type} (outputs : Outputs D) : Prop :=
  outputs.armJointNames.length = outputs.armPositionCmd.length ∧
  outputs.armJointNames.length = outputs.armVelocityCmd.length ∧
  outputs.armJointNames.length = outputs.armEffortCmd.length ∧
  outputs.armPositionCmd.length = outputs.armVelocityCmd.length ∧
  outputs.armPositionCmd.length = outputs.armEffortCmd.length ∧
  outputs.armVelocityCmd.length = outputs.armEffortCmd.length

/-- Two output sets hold the same values outside the four arm outputs. -/
def SameOutsideArm {D : Type} (outputs1 outputs2 : Outputs D) : Prop :=
  outputs1.yaw = outputs2.yaw ∧ outputs1.gripperCmd = outputs2.gripperCmd ∧
  outputs1.timestamp = outputs2.timestamp ∧
  outputs1.chassisLinearVel = outputs2.chassisLinearVel ∧
  outputs1.chassisAngularVel = outputs2.chassisAngularVel ∧
  outputs1.messageReceived = outputs2.messageReceived ∧
  outputs1.execOut = outputs2.execOut

/-- The inputs of `sampleInputs` with queue size -1 and a namespace. -/
def negativeQueueInputs : Inputs :=
  { topicName := "/robot_cmd", nodeNamespace := "robot1", qosProfile := "sensor_data"
    queueSize := -1, context := 0 }

/-! ## Arrays and loops: lemmas -/


/-- An array has the requested length after `resize`. -/
theorem resize_length {α : Type} (arr : List α) (n : Nat) (fill : α) :
    (resize arr n fill).length = n := by
  simp [resize]; omega

/-- An array is empty after `resize(0)`. -/
theorem resize_zero {α : Type} (arr : List α) (fill : α) : resize arr 0 fill = [] := by
  simp [resize]

/-- The loop tests `lo < hi`, runs the body at `lo` and goes on from `lo + 1`. -/
theorem forLoop_unfold {σ : Type} (lo hi : Nat) (body : Nat → σ → Option σ) (s : σ) :
    forLoop lo hi body s =
      if lo < hi then (body lo s).bind (forLoop (lo + 1) hi body) else some s := by
  unfold forLoop
  split
  · next h =>
    obtain ⟨k, hk⟩ : ∃ k, hi - lo = k + 1 := ⟨hi - lo - 1, by omega⟩
    have h2 : hi - (lo + 1) = k := by omega
    rw [hk, h2]
    cases hb : body lo s <;> simp [iterate, hb]
  · next h =>
    have : hi - lo = 0 := by omega
    rw [this]; rfl

/-- A run of writes `arr[i] = f i` over `n` indices from `lo` on, all inside the array. -/
theorem iterate_write {α : Type} (g : Nat → Option α) (f : Nat → α) :
    ∀ (n lo : Nat) (arr : List α), lo + n ≤ arr.length →
      (∀ i, lo ≤ i → i < lo + n → g i = some (f i)) →
      ∃ r, iterate (fun i a => (g i).bind (fun v => writeAt a i v)) n lo arr = some r ∧
        r.length = arr.length ∧
        ∀ j, r[j]? = if lo ≤ j ∧ j < lo + n then some (f j) else arr[j]? := by
  intro n
  induction n with
  | zero =>
    intro lo arr _ _
    refine ⟨arr, rfl, rfl, ?_⟩
    intro j
    have : ¬ (lo ≤ j ∧ j < lo + 0) := by omega
    rw [if_neg this]
  | succ n ih =>
    intro lo arr hlen hg
    have h0 : g lo = some (f lo) := hg lo (Nat.le_refl _) (by omega)
    have hlt : lo < arr.length := by omega
    obtain ⟨r, hr, hrl, hrj⟩ := ih (lo + 1) (arr.set lo (f lo))
      (by simp; omega) (fun i h1 h2 => hg i (by omega) (by omega))
    refine ⟨r, ?_, ?_, ?_⟩
    · have hw : writeAt arr lo (f lo) = some (arr.set lo (f lo)) := by simp [writeAt, hlt]
      simp only [iterate, h0, Option.some_bind, hw]
      exact hr
    · simpa using hrl
    · intro j
      rw [hrj j, List.getElem?_set]
      by_cases hj : lo = j
      · subst hj
        have : ¬ (lo + 1 ≤ lo ∧ lo < lo + 1 + n) := by omega
        have h2 : lo ≤ lo ∧ lo < lo + (n + 1) := by omega
        simp [hlt, this, h2]
      · have e : (lo + 1 ≤ j ∧ j < lo + 1 + n) ↔ (lo ≤ j ∧ j < lo + (n + 1)) := by omega
        simp only [e, hj, if_false]


/-- The loop that writes `dflt i` into every slot of `lo ≤ i < hi`. -/
theorem fillLoop_spec {α : Type} (dflt : Nat → α) (lo hi : Nat) (arr : List α)
    (hlo : lo ≤ hi) (hhi : hi ≤ arr.length) :
    ∃ r, forLoop lo hi (fun i a => writeAt a i (dflt i)) arr = some r ∧
      r.length = arr.length ∧
      ∀ j, r[j]? = if lo ≤ j ∧ j < hi then some (dflt j) else arr[j]? := by
  have h := iterate_write (fun i => some (dflt i)) dflt (hi - lo) lo arr (by omega)
    (fun _ _ _ => rfl)
  have e : lo + (hi - lo) = hi := by omega
  rw [e] at h
  exact h

/-- The loop that copies `data[i]` into every slot of `i < hi`. -/
theorem copyLoop_spec {α : Type} (data : List α) (d : α) (hi : Nat) (arr : List α)
    (hd : hi ≤ data.length) (hhi : hi ≤ arr.length) :
    ∃ r, forLoop 0 hi (fun i a => (readAt data i).bind (fun v => writeAt a i v)) arr = some r ∧
      r.length = arr.length ∧
      ∀ j, r[j]? = if j < hi then some (data.getD j d) else arr[j]? := by
  have h := iterate_write (fun i => readAt data i) (fun i => data.getD i d) (hi - 0) 0 arr
    (by omega)
    (fun i _ h2 => by
      have : i < data.length := by omega
      simp [readAt, List.getD, List.getElem?_eq_getElem, this])
  obtain ⟨r, h1, h2, h3⟩ := h
  refine ⟨r, h1, h2, ?_⟩
  intro j
  rw [h3 j]
  have e : (0 ≤ j ∧ j < 0 + (hi - 0)) ↔ j < hi := by omega
  simp only [e]

/-- The copy loop followed by the fill loop writes every slot of an array of
length `n`: slot `i` holds `data[i]` when `data` has it and `dflt i` otherwise. -/
theorem copyFill_spec {α : Type} (data : List α) (dflt : Nat → α) (n : Nat) (arr : List α)
    (hn : arr.length = n) :
    (forLoop 0 (min data.length n)
        (fun i a => (readAt data i).bind (fun v => writeAt a i v)) arr).bind
      (forLoop (min data.length n) n (fun i a => writeAt a i (dflt i))) =
    some ((List.range n).map (fun i => data.getD i (dflt i))) := by
  obtain ⟨r1, h1, l1, g1⟩ := copyLoop_spec data (dflt 0) (min data.length n) arr
    (Nat.min_le_left _ _) (by omega)
  obtain ⟨r2, h2, l2, g2⟩ := fillLoop_spec dflt (min data.length n) n r1
    (Nat.min_le_right _ _) (by omega)
  rw [h1, Option.some_bind, h2]
  congr 1
  apply List.ext_getElem?
  intro j
  rw [g2 j, g1 j]
  by_cases hj : j < n
  · by_cases hd : j < data.length
    · have a1 : ¬ (min data.length n ≤ j ∧ j < n) := by omega
      have a2 : j < min data.length n := by omega
      simp [a1, a2, hj, hd, List.getD, List.getElem?_eq_getElem]
    · have a1 : min data.length n ≤ j ∧ j < n := by omega
      have a2 : data[j]? = none := List.getElem?_eq_none (by omega)
      simp [a1, hj, List.getD, a2]
  · have a1 : ¬ (min data.length n ≤ j ∧ j < n) := by omega
    have a2 : ¬ j < min data.length n := by omega
    have a3 : arr[j]? = none := List.getElem?_eq_none (by omega)
    have a4 : (List.range n)[j]? = none := List.getElem?_eq_none (by simp; omega)
    rw [if_neg a1, if_neg a2, a3, List.getElem?_map, a4]
    rfl

/-- The fill loop alone writes `dflt i` into every slot of an array of length `n`. -/
theorem fill_spec {α : Type} (dflt : Nat → α) (n : Nat) (arr : List α) (hn : arr.length = n) :
    forLoop 0 n (fun i a => writeAt a i (dflt i)) arr = some ((List.range n).map dflt) := by
  obtain ⟨r, h, l, g⟩ := fillLoop_spec dflt 0 n arr (Nat.zero_le _) (by omega)
  rw [h]
  congr 1
  apply List.ext_getElem?
  intro j
  rw [g j]
  by_cases hj : j < n
  · simp [hj]
  · have a3 : arr[j]? = none := List.getElem?_eq_none (by omega)
    have a4 : (List.range n)[j]? = none := List.getElem?_eq_none (by simp; omega)
    simp [hj, a3, a4]

/-- Reading a C string twice gives what reading it once gives. -/
theorem c_str_idem (s : String) : c_str (c_str s) = c_str s := by
  unfold c_str
  simp only [List.takeWhile_idem]

/-- A string without NUL is read whole. -/
theorem c_str_of_no_nul (s : String) (h : ∀ c ∈ s.data, c ≠ Char.ofNat 0) : c_str s = s := by
  unfold c_str
  have : s.data.takeWhile (fun c => c != Char.ofNat 0) = s.data := by
    rw [List.takeWhile_eq_self_iff]
    intro c hc
    simpa using h c hc
  rw [this]

/-- The C string that is read holds no NUL. -/
theorem c_str_no_nul (s : String) : ∀ c ∈ (c_str s).data, c ≠ Char.ofNat 0 := by
  intro c hc
  unfold c_str at hc
  have := List.mem_takeWhile_imp hc
  simpa using this

/-- A conditional whose two branches differ from `x` differs from `x`. -/
theorem ite_ne_of_ne {α : Type} (c : Prop) [Decidable c] (a b x : α) (ha : a ≠ x)
    (hb : b ≠ x) : (if c then a else b) ≠ x := by
  split
  · exact ha
  · exact hb

/-- No digit character is NUL. -/
theorem digitChar_ne_nul (n : Nat) : Nat.digitChar n ≠ Char.ofNat 0 := by
  unfold Nat.digitChar
  repeat (apply ite_ne_of_ne _ _ _ _ (by decide))
  decide

/-- The decimal digits of a number hold no NUL. -/
theorem toDigitsCore_no_nul (fuel : Nat) :
    ∀ (n : Nat) (ds : List Char), (∀ c ∈ ds, c ≠ Char.ofNat 0) →
      ∀ c ∈ Nat.toDigitsCore 10 fuel n ds, c ≠ Char.ofNat 0 := by
  induction fuel with
  | zero =>
    intro n ds hds c hc
    exact hds c hc
  | succ fuel ih =>
    intro n ds hds c hc
    have hcons : ∀ x ∈ Nat.digitChar (n % 10) :: ds, x ≠ Char.ofNat 0 := by
      intro x hx
      rcases List.mem_cons.mp hx with h | h
      · rw [h]
        exact digitChar_ne_nul _
      · exact hds x h
    unfold Nat.toDigitsCore at hc
    simp only [] at hc
    split at hc
    · exact hcons c hc
    · exact ih _ _ hcons c hc

/-- A synthesized name holds no NUL, so its token is the whole name. -/
theorem c_str_default_name (i : Nat) : c_str (default_name i) = default_name i := by
  apply c_str_of_no_nul
  intro c hc
  unfold default_name at hc
  rw [String.data_append] at hc
  rcases List.mem_append.mp hc with h | h
  · intro hnul
    rw [hnul] at h
    exact absurd h (by decide)
  · exact toDigitsCore_no_nul _ _ [] (fun _ hx => absurd hx (List.not_mem_nil _)) c h

/-- The slot `i` of a mapped list, with the bound made explicit. -/
theorem getD_map_eq_dite {α β : Type} (f : α → β) (data : List α) (i : Nat) (d : β) :
    (data.map f).getD i d = if h : i < data.length then f data[i] else d := by
  split
  · next h =>
    rw [List.getD_eq_getElem _ _ (by simpa using h)]
    simp
  · next h =>
    simp [List.getD, List.getElem?_eq_none (Nat.le_of_not_lt h)]

/-- Closed form of the joint names written by lines 247-268. -/
theorem extractJointNames_eq (joint_names : List String) (n : Nat) (arr : List String)
    (hn : arr.length = n) :
    extractJointNames joint_names n arr =
      some ((List.range n).map (fun i => (joint_names.map c_str).getD i (default_name i))) := by
  have hcopy : (fun (i : Nat) (arr : List String) =>
      (readAt joint_names i).bind (fun data =>
        let joint_name := c_str data
        writeAt arr i (c_str joint_name))) =
      (fun (i : Nat) (arr : List String) =>
        (readAt (joint_names.map c_str) i).bind (fun v => writeAt arr i v)) := by
    funext i arr
    unfold readAt
    rw [List.getElem?_map]
    cases joint_names[i]? with
    | none => rfl
    | some data => simp [c_str_idem]
  have hfill : (fun (i : Nat) (arr : List String) => writeAt arr i (c_str (default_name i))) =
      (fun (i : Nat) (arr : List String) => writeAt arr i (default_name i)) := by
    funext i arr
    rw [c_str_default_name]
  unfold extractJointNames
  rw [hcopy, hfill]
  split
  · have h := copyFill_spec (joint_names.map c_str) default_name n arr hn
    rw [List.length_map] at h
    exact h
  · next h =>
    have : joint_names = [] := by
      cases joint_names with
      | nil => rfl
      | cons a l => simp at h
    subst this
    simpa using fill_spec default_name n arr hn

/-- Closed form of the values written by each of the three numeric blocks. -/
theorem extractCmd_eq {D : Type} [Zero D] (data : List D) (n : Nat) (arr : List D)
    (hn : arr.length = n) :
    extractCmd data n arr = some ((List.range n).map (fun i => data.getD i 0)) := by
  unfold extractCmd
  split
  · exact copyFill_spec data (fun _ => 0) n arr hn
  · next h =>
    have : data = [] := by
      cases data with
      | nil => rfl
      | cons a l => simp at h
    subst this
    simpa using fill_spec (fun _ => (0 : D)) n arr hn


/-- The read of the latest point, `points.data[points.size - 1]`, is the last element. -/
theorem readAt_latest {α : Type} (points : List α) :
    readAt points (points.length - 1) = points.getLast? := by
  unfold readAt
  exact (List.getLast?_eq_getElem? points).symm

/-- The slot value `data[i]` or `d`, written with the bound made explicit. -/
theorem getD_eq_dite {α : Type} (data : List α) (i : Nat) (d : α) :
    data.getD i d = if h : i < data.length then data[i] else d := by
  split
  · next h => exact List.getD_eq_getElem _ _ h
  · next h => simp [List.getD, List.getElem?_eq_none (Nat.le_of_not_lt h)]

/-- Closed form of lines 220-366 for a message without trajectory points. -/
theorem processArmCmd_nil {D : Type} [Zero D] (ros_msg : RobotCmd D) (outputs : Outputs D)
    (h : ros_msg.arm_cmd.points = []) :
    processArmCmd ros_msg outputs =
      some { outputs with
        armJointNames := [], armPositionCmd := [], armVelocityCmd := [], armEffortCmd := [] } := by
  simp [processArmCmd, h, resize_zero]

/-- Closed form of lines 220-366 for a message whose last trajectory point is
`latest_point`. -/
theorem processArmCmd_last {D : Type} [Zero D] (ros_msg : RobotCmd D) (outputs : Outputs D)
    (latest_point : TrajectoryPoint D)
    (h : ros_msg.arm_cmd.points.getLast? = some latest_point) :
    processArmCmd ros_msg outputs =
      if 0 < num_joints ros_msg.arm_cmd.joint_names latest_point then
        some { outputs with
          armJointNames :=
            (List.range (num_joints ros_msg.arm_cmd.joint_names latest_point)).map
              (fun i => (ros_msg.arm_cmd.joint_names.map c_str).getD i (default_name i))
          armPositionCmd :=
            (List.range (num_joints ros_msg.arm_cmd.joint_names latest_point)).map
              (fun i => latest_point.positions.getD i 0)
          armVelocityCmd :=
            (List.range (num_joints ros_msg.arm_cmd.joint_names latest_point)).map
              (fun i => latest_point.velocities.getD i 0)
          armEffortCmd :=
            (List.range (num_joints ros_msg.arm_cmd.joint_names latest_point)).map
              (fun i => latest_point.effort.getD i 0) }
      else
        some outputs := by
  have hne : ros_msg.arm_cmd.points ≠ [] := by
    intro hnil
    rw [hnil] at h
    simp at h
  have hlen : ros_msg.arm_cmd.points.length > 0 := List.length_pos.mpr hne
  unfold processArmCmd
  rw [if_pos hlen]
  simp only []
  rw [readAt_latest, h, Option.some_bind]
  by_cases hn : 0 < num_joints ros_msg.arm_cmd.joint_names latest_point
  · simp only [gt_iff_lt, hn, if_true]
    rw [extractJointNames_eq _ _ _ (resize_length _ _ _), Option.some_bind,
      extractCmd_eq _ _ _ (resize_length _ _ _), Option.some_bind,
      extractCmd_eq _ _ _ (resize_length _ _ _), Option.some_bind,
      extractCmd_eq _ _ _ (resize_length _ _ _), Option.some_bind]
  · simp only [gt_iff_lt, hn, if_false]


/-! ## The node: lemmas -/

/-- Decoding a received message never leaves an array and always produces outputs. -/
theorem decode_isSome {D : Type} [Float64 D] (ros_msg : RobotCmd D) (outputs : Outputs D) :
    ∃ o, decode ros_msg outputs = some o := by
  unfold decode
  cases h : ros_msg.arm_cmd.points.getLast? with
  | none =>
    rw [List.getLast?_eq_none_iff] at h
    rw [processArmCmd_nil _ _ h]
    exact ⟨_, rfl⟩
  | some latest_point =>
    rw [processArmCmd_last _ _ latest_point h]
    split <;> exact ⟨_, rfl⟩

/-- Taking a message always produces a state and outputs. -/
theorem takeMessage_isSome {D : Type} [Float64 D] (state : NodeState) (rcl : Rcl D)
    (outputs : Outputs D) : ∃ p, takeMessage state rcl outputs = some p := by
  unfold takeMessage
  split
  · obtain ⟨o, ho⟩ := decode_isSome rcl.ros_msg outputs
    rw [ho]
    exact ⟨_, rfl⟩
  · split <;> exact ⟨_, rfl⟩

/-- The calls made while binding are creation calls only, and the node and the
subscription are created with arguments computed from the inputs. -/
theorem bindSubscriber_calls {D : Type} (state : NodeState) (inputs : Inputs) (rcl : Rcl D) :
    ∀ c ∈ (bindSubscriber state inputs rcl).2.2,
      c = Call.rcl_init_options_init ∨ c = Call.rcl_init ∨
      c = Call.rcl_node_init "robot_cmd_subscriber"
        (if inputs.nodeNamespace = "" then "" else "/" ++ inputs.nodeNamespace) ∨
      c = Call.rcl_subscription_init inputs.topicName
        (sub_options_qos inputs.qosProfile inputs.queueSize) := by
  intro c hc
  unfold bindSubscriber initContext createSubscriber at hc
  simp only [] at hc
  split_ifs at hc <;> simp at hc <;> aesop

/-- The joint count of the decoder is the first non-zero of the four lengths. -/
theorem num_joints_firstNonZero {D : Type} (joint_names : List String)
    (latest_point : TrajectoryPoint D) :
    num_joints joint_names latest_point =
      firstNonZero [joint_names.length, latest_point.positions.length,
        latest_point.velocities.length, latest_point.effort.length] := by
  unfold num_joints firstNonZero
  by_cases h1 : joint_names.length = 0
  · by_cases h2 : latest_point.positions.length = 0
    · by_cases h3 : latest_point.velocities.length = 0
      · by_cases h4 : latest_point.effort.length = 0
        · simp [List.find?, h1, h2, h3, h4]
        · have : latest_point.effort.length > 0 := Nat.pos_of_ne_zero h4
          simp [List.find?, h1, h2, h3, h4, this]
      · have : latest_point.velocities.length > 0 := Nat.pos_of_ne_zero h3
        simp [List.find?, h1, h2, h3, this]
    · have : latest_point.positions.length > 0 := Nat.pos_of_ne_zero h2
      simp [List.find?, h1, h2, this]
  · have : joint_names.length > 0 := Nat.pos_of_ne_zero h1
    simp [List.find?, h1, this]

/-- A non-empty point sequence has a last point. -/
theorem exists_latest_point {α : Type} (points : List α) (h : points ≠ []) :
    ∃ latest_point, points.getLast? = some latest_point := by
  cases hl : points.getLast? with
  | none => exact absurd (List.getLast?_eq_none_iff.mp hl) h
  | some p => exact ⟨p, rfl⟩

/-- A cycle of a bound node whose configuration did not change: no teardown, no bind,
one `rcl_take`. -/
theorem compute_bound {D : Type} [Float64 D] (state : NodeState) (inputs : Inputs)
    (rcl : Rcl D) (outputs : Outputs D)
    (hb : state.sub_created = true) (hn : need_recreate state inputs = false) :
    compute state inputs rcl outputs =
      (takeMessage state rcl outputs).map
        (fun p => { ret := true, state := p.1, outputs := p.2, calls := [Call.rcl_take] }) := by
  unfold compute checkRecreate
  simp [hb, hn]

/-- A cycle of a node that is not bound, or whose configuration changed: the teardown
when it changed, then the bind, then one `rcl_take` unless the bind failed. -/
theorem compute_rebind {D : Type} [Float64 D] (state : NodeState) (inputs : Inputs)
    (rcl : Rcl D) (outputs : Outputs D)
    (h : state.sub_created = false ∨ need_recreate state inputs = true) :
    compute state inputs rcl outputs =
      if (bindSubscriber (checkRecreate state inputs).1 inputs rcl).1 = true then
        (takeMessage (bindSubscriber (checkRecreate state inputs).1 inputs rcl).2.1
            rcl outputs).map
          (fun p => { ret := true, state := p.1, outputs := p.2
                      calls := (checkRecreate state inputs).2 ++
                        (bindSubscriber (checkRecreate state inputs).1 inputs rcl).2.2 ++
                        [Call.rcl_take] })
      else
        some { ret := false
               state := (bindSubscriber (checkRecreate state inputs).1 inputs rcl).2.1
               outputs := outputs
               calls := (checkRecreate state inputs).2 ++
                 (bindSubscriber (checkRecreate state inputs).1 inputs rcl).2.2 } := by
  unfold compute checkRecreate
  by_cases hn : need_recreate state inputs = true
  · simp only [hn, if_true, teardown]
    rcases hbind : bindSubscriber { state with sub_created := false } inputs rcl with ⟨ok, st, calls⟩
    cases ok <;> simp [hbind]
  · have hs : state.sub_created = false := by
      rcases h with h | h
      · exact h
      · exact absurd h hn
    simp only [Bool.not_eq_true] at hn
    simp only [hn]
    rcases hbind : bindSubscriber state inputs rcl with ⟨ok, st, calls⟩
    cases ok <;> simp [hbind, hs]

/-- The three ways a cycle can go: compute always returns, and its result is that of
a poll without bind, of a bind followed by a poll, or of a failed bind. -/
theorem compute_cases {D : Type} [Float64 D] (state : NodeState) (inputs : Inputs)
    (rcl : Rcl D) (outputs : Outputs D) :
    ∃ r, compute state inputs rcl outputs = some r ∧
      ((state.sub_created = true ∧ need_recreate state inputs = false ∧
          ∃ p, takeMessage state rcl outputs = some p ∧
            r = { ret := true, state := p.1, outputs := p.2, calls := [Call.rcl_take] }) ∨
       ((state.sub_created = false ∨ need_recreate state inputs = true) ∧
          (bindSubscriber (checkRecreate state inputs).1 inputs rcl).1 = true ∧
          ∃ p, takeMessage (bindSubscriber (checkRecreate state inputs).1 inputs rcl).2.1
                rcl outputs = some p ∧
            r = { ret := true, state := p.1, outputs := p.2
                  calls := (checkRecreate state inputs).2 ++
                    (bindSubscriber (checkRecreate state inputs).1 inputs rcl).2.2 ++
                    [Call.rcl_take] }) ∨
       ((state.sub_created = false ∨ need_recreate state inputs = true) ∧
          (bindSubscriber (checkRecreate state inputs).1 inputs rcl).1 = false ∧
          r = { ret := false
                state := (bindSubscriber (checkRecreate state inputs).1 inputs rcl).2.1
                outputs := outputs
                calls := (checkRecreate state inputs).2 ++
                  (bindSubscriber (checkRecreate state inputs).1 inputs rcl).2.2 })) := by
  by_cases h : state.sub_created = false ∨ need_recreate state inputs = true
  · rw [compute_rebind state inputs rcl outputs h]
    by_cases hok : (bindSubscriber (checkRecreate state inputs).1 inputs rcl).1 = true
    · rw [if_pos hok]
      obtain ⟨p, hp⟩ := takeMessage_isSome
        (bindSubscriber (checkRecreate state inputs).1 inputs rcl).2.1 rcl outputs
      rw [hp]
      exact ⟨_, rfl, Or.inr (Or.inl ⟨h, hok, p, rfl, rfl⟩)⟩
    · rw [if_neg hok]
      simp only [Bool.not_eq_true] at hok
      exact ⟨_, rfl, Or.inr (Or.inr ⟨h, hok, rfl⟩)⟩
  · have hs : state.sub_created = true := by
      cases hc : state.sub_created
      · exact absurd (Or.inl hc) h
      · rfl
    have hn : need_recreate state inputs = false := by
      cases hc : need_recreate state inputs
      · rfl
      · exact absurd (Or.inr hc) h
    rw [compute_bound state inputs rcl outputs hs hn]
    obtain ⟨p, hp⟩ := takeMessage_isSome state rcl outputs
    rw [hp]
    exact ⟨_, rfl, Or.inl ⟨hs, hn, p, rfl, rfl⟩⟩

/-- The calls of the check: the two finalize calls when it asks for a recreation,
none otherwise. -/
theorem checkRecreate_calls (state : NodeState) (inputs : Inputs) :
    (checkRecreate state inputs).2 =
      if need_recreate state inputs = true then
        [Call.rcl_subscription_fini, Call.rcl_node_fini]
      else [] := by
  unfold checkRecreate teardown
  split <;> rfl

/-- Every call of a cycle is one of the two finalize calls, one of the four creation
calls with arguments computed from the inputs, or `rcl_take`. -/
theorem compute_calls {D : Type} [Float64 D] (state : NodeState) (inputs : Inputs)
    (rcl : Rcl D) (outputs : Outputs D) :
    ∃ r, compute state inputs rcl outputs = some r ∧
      ∀ c ∈ r.calls,
        c = Call.rcl_subscription_fini ∨ c = Call.rcl_node_fini ∨
        c = Call.rcl_init_options_init ∨ c = Call.rcl_init ∨
        c = Call.rcl_node_init "robot_cmd_subscriber"
          (if inputs.nodeNamespace = "" then "" else "/" ++ inputs.nodeNamespace) ∨
        c = Call.rcl_subscription_init inputs.topicName
          (sub_options_qos inputs.qosProfile inputs.queueSize) ∨
        c = Call.rcl_take := by
  have hb := bindSubscriber_calls (checkRecreate state inputs).1 inputs rcl
  have hc : ∀ c ∈ (checkRecreate state inputs).2,
      c = Call.rcl_subscription_fini ∨ c = Call.rcl_node_fini := by
    intro c hmem
    rw [checkRecreate_calls] at hmem
    split at hmem <;> simp at hmem
    exact hmem
  obtain ⟨r, hr, hcase⟩ := compute_cases state inputs rcl outputs
  refine ⟨r, hr, ?_⟩
  intro c hmem
  rcases hcase with ⟨_, _, p, _, rfl⟩ | ⟨_, _, p, _, rfl⟩ | ⟨_, _, rfl⟩
  · simp at hmem
    simp [hmem]
  · simp only [List.mem_append, List.mem_singleton] at hmem
    rcases hmem with (h | h) | h
    · rcases hc c h with h | h <;> simp [h]
    · rcases hb c h with h | h | h | h <;> simp [h]
    · simp [h]
  · simp only [List.mem_append] at hmem
    rcases hmem with h | h
    · rcases hc c h with h | h <;> simp [h]
    · rcases hb c h with h | h | h | h <;> simp [h]

/-- The joint count in the words of the specification is the one the decoder computes
from the last point. -/
theorem specNumJoints_last {D : Type} (ros_msg : RobotCmd D) (latest_point : TrajectoryPoint D)
    (h : ros_msg.arm_cmd.points.getLast? = some latest_point) :
    specNumJoints ros_msg = num_joints ros_msg.arm_cmd.joint_names latest_point := by
  rw [num_joints_firstNonZero]
  simp [specNumJoints, h]

/-- The arm outputs have the length of the joint count after the decoding of a
message that has no trajectory point or a positive joint count. -/
theorem decode_arm_lengths {D : Type} [Float64 D] (ros_msg : RobotCmd D) (outputs : Outputs D)
    (h : ros_msg.arm_cmd.points = [] ∨ 0 < specNumJoints ros_msg) :
    ∃ o, decode ros_msg outputs = some o ∧
      o.armJointNames.length = specNumJoints ros_msg ∧
      o.armPositionCmd.length = specNumJoints ros_msg ∧
      o.armVelocityCmd.length = specNumJoints ros_msg ∧
      o.armEffortCmd.length = specNumJoints ros_msg := by
  cases hl : ros_msg.arm_cmd.points.getLast? with
  | none =>
    have hnil := List.getLast?_eq_none_iff.mp hl
    have h0 : specNumJoints ros_msg = 0 := by simp [specNumJoints, hl]
    unfold decode
    rw [processArmCmd_nil _ _ hnil, h0]
    exact ⟨_, rfl, rfl, rfl, rfl, rfl⟩
  | some p =>
    have hpos : 0 < specNumJoints ros_msg := by
      rcases h with h | h
      · rw [h] at hl
        simp at hl
      · exact h
    rw [specNumJoints_last _ _ hl] at hpos ⊢
    unfold decode
    rw [processArmCmd_last _ _ p hl, if_pos hpos]
    refine ⟨_, rfl, ?_, ?_, ?_, ?_⟩ <;> simp

/-- The decoding of a message that has no trajectory point or a positive joint count
writes every output: the result does not depend on the prior outputs. -/
theorem decode_prior_independent {D : Type} [Float64 D] (ros_msg : RobotCmd D)
    (outputs1 outputs2 : Outputs D)
    (h : ros_msg.arm_cmd.points = [] ∨ 0 < specNumJoints ros_msg) :
    decode ros_msg outputs1 = decode ros_msg outputs2 := by
  cases hl : ros_msg.arm_cmd.points.getLast? with
  | none =>
    have hnil := List.getLast?_eq_none_iff.mp hl
    unfold decode
    rw [processArmCmd_nil _ _ hnil, processArmCmd_nil _ _ hnil]
  | some p =>
    have hpos : 0 < specNumJoints ros_msg := by
      rcases h with h | h
      · rw [h] at hl
        simp at hl
      · exact h
    rw [specNumJoints_last _ _ hl] at hpos
    unfold decode
    rw [processArmCmd_last _ _ p hl, processArmCmd_last _ _ p hl, if_pos hpos, if_pos hpos]

/-- The decoding of a message with trajectory points and joint count 0 leaves the
four arm outputs as they were. -/
theorem decode_zero_joints {D : Type} [Float64 D] (ros_msg : RobotCmd D) (outputs : Outputs D)
    (latest_point : TrajectoryPoint D)
    (hlast : ros_msg.arm_cmd.points.getLast? = some latest_point)
    (hn : num_joints ros_msg.arm_cmd.joint_names latest_point = 0) :
    ∃ o, decode ros_msg outputs = some o ∧
      o.armJointNames = outputs.armJointNames ∧ o.armPositionCmd = outputs.armPositionCmd ∧
      o.armVelocityCmd = outputs.armVelocityCmd ∧ o.armEffortCmd = outputs.armEffortCmd := by
  unfold decode
  rw [processArmCmd_last _ _ latest_point hlast, if_neg (by omega)]
  exact ⟨_, rfl, rfl, rfl, rfl, rfl⟩

/-! ## Claims -/

/-- C1: the configuration check of compute asks for a recreation exactly when the
subscription is already bound and one of the five fields topic, namespace, QoS profile,
queue size, context differs from the value last applied; and compute finalizes the
subscription in a cycle exactly when the check asks for it.  So the check is false for
equal configurations and false whenever the node is not bound. -/
theorem need_recreate_iff_bound_and_changed {D : Type} [Float64 D] (state : NodeState)
    (inputs : Inputs) (rcl : Rcl D) (outputs : Outputs D) :
    (need_recreate state inputs = true ↔
      state.sub_created = true ∧
        (inputs.topicName ≠ state.last_topic_name ∨
         inputs.nodeNamespace ≠ state.last_namespace ∨
         inputs.qosProfile ≠ state.last_qos_profile ∨
         inputs.queueSize ≠ state.last_queue_size ∨
         inputs.context ≠ state.last_context)) ∧
    (∃ r, compute state inputs rcl outputs = some r ∧
      (Call.rcl_subscription_fini ∈ r.calls ↔ need_recreate state inputs = true)) := by
  constructor
  · unfold need_recreate
    cases state.sub_created <;> simp
  · have hnot : Call.rcl_subscription_fini ∉
        (bindSubscriber (checkRecreate state inputs).1 inputs rcl).2.2 := by
      intro hmem
      rcases bindSubscriber_calls _ inputs rcl _ hmem with h | h | h | h <;> cases h
    obtain ⟨r, hr, hcase⟩ := compute_cases state inputs rcl outputs
    refine ⟨r, hr, ?_⟩
    rcases hcase with ⟨_, hn, _, _, rfl⟩ | ⟨_, _, _, _, rfl⟩ | ⟨_, _, rfl⟩
    · simp [hn]
    · by_cases hn : need_recreate state inputs = true <;>
        simp [checkRecreate_calls, hn, hnot]
    · by_cases hn : need_recreate state inputs = true <;>
        simp [checkRecreate_calls, hn, hnot]

/-- C2: the QoS that compute passes to `rcl_subscription_init` is `sub_options_qos` of
the profile name, which is (BEST_EFFORT, VOLATILE) for `sensor_data`,
(RELIABLE, VOLATILE) for `parameter_events`, (BEST_EFFORT, VOLATILE) for
`system_default` and (RELIABLE, VOLATILE) for every other profile name; so an unknown
name selects the same policy as `default`. -/
theorem sub_options_qos_table {D : Type} [Float64 D] (state : NodeState) (inputs : Inputs)
    (rcl : Rcl D) (outputs : Outputs D) :
    (∃ r, compute state inputs rcl outputs = some r ∧
      ∀ topic qos, Call.rcl_subscription_init topic qos ∈ r.calls →
        qos = sub_options_qos inputs.qosProfile inputs.queueSize) ∧
    (∀ current_queue_size : Int,
      ((sub_options_qos "sensor_data" current_queue_size).reliability =
          Reliability.BEST_EFFORT ∧
        (sub_options_qos "sensor_data" current_queue_size).durability =
          Durability.VOLATILE) ∧
      ((sub_options_qos "parameter_events" current_queue_size).reliability =
          Reliability.RELIABLE ∧
        (sub_options_qos "parameter_events" current_queue_size).durability =
          Durability.VOLATILE) ∧
      ((sub_options_qos "system_default" current_queue_size).reliability =
          Reliability.BEST_EFFORT ∧
        (sub_options_qos "system_default" current_queue_size).durability =
          Durability.VOLATILE) ∧
      (∀ qos_profile : String, qos_profile ≠ "sensor_data" →
        qos_profile ≠ "parameter_events" → qos_profile ≠ "system_default" →
        (sub_options_qos qos_profile current_queue_size).reliability = Reliability.RELIABLE ∧
        (sub_options_qos qos_profile current_queue_size).durability = Durability.VOLATILE ∧
        sub_options_qos qos_profile current_queue_size =
          sub_options_qos "default" current_queue_size)) := by
  constructor
  · obtain ⟨r, hr, hcalls⟩ := compute_calls state inputs rcl outputs
    refine ⟨r, hr, ?_⟩
    intro topic qos hmem
    rcases hcalls _ hmem with h | h | h | h | h | h | h
    · cases h
    · cases h
    · cases h
    · cases h
    · cases h
    · cases h
      rfl
    · cases h
  · intro current_queue_size
    refine ⟨?_, ?_, ?_, ?_⟩
    · simp [sub_options_qos]
    · simp [sub_options_qos]
    · simp [sub_options_qos]
    · intro qos_profile h1 h2 h3
      simp [sub_options_qos, h1, h2, h3]

/-- C2, at the profile name `unknown_profile` with queue size 10. -/
theorem sub_options_qos_table_witness :
    (sub_options_qos "unknown_profile" 10).reliability = Reliability.RELIABLE ∧
    (sub_options_qos "unknown_profile" 10).durability = Durability.VOLATILE ∧
    sub_options_qos "unknown_profile" 10 = sub_options_qos "default" 10 :=
  ((sub_options_qos_table boundState sampleInputs (sampleRcl 0 noPointsMsg) freshOutputs).2
    10).2.2.2 "unknown_profile" (by decide) (by decide) (by decide)

/-- C4: for a message with a non-empty point sequence, the joint count the decoder
uses (`num_joints` of the joint names and the last point) is the first non-zero value
of the list of the lengths of the joint names, the positions, the velocities and the
effort of the last point, and is 0 when the four lengths are 0. -/
theorem num_joints_eq_firstNonZero {D : Type} (ros_msg : RobotCmd D)
    (h : ros_msg.arm_cmd.points ≠ []) :
    ∃ latest_point,
      readAt ros_msg.arm_cmd.points (ros_msg.arm_cmd.points.length - 1) = some latest_point ∧
      num_joints ros_msg.arm_cmd.joint_names latest_point =
        firstNonZero [ros_msg.arm_cmd.joint_names.length, latest_point.positions.length,
          latest_point.velocities.length, latest_point.effort.length] ∧
      num_joints ros_msg.arm_cmd.joint_names latest_point = specNumJoints ros_msg ∧
      (ros_msg.arm_cmd.joint_names.length = 0 ∧ latest_point.positions.length = 0 ∧
          latest_point.velocities.length = 0 ∧ latest_point.effort.length = 0 →
        num_joints ros_msg.arm_cmd.joint_names latest_point = 0) := by
  obtain ⟨p, hp⟩ := exists_latest_point _ h
  refine ⟨p, by rw [readAt_latest, hp], num_joints_firstNonZero _ _, ?_, ?_⟩
  · rw [num_joints_firstNonZero]
    simp [specNumJoints, hp]
  · rintro ⟨h1, h2, h3, h4⟩
    simp [num_joints, h1, h2, h3, h4]

/-- C4, at a message with three points whose last point has two velocities and one
effort value only: the joint count is 2. -/
theorem num_joints_eq_firstNonZero_witness :
    ∃ latest_point,
      readAt threePointMsg.arm_cmd.points (threePointMsg.arm_cmd.points.length - 1) =
        some latest_point ∧
      num_joints threePointMsg.arm_cmd.joint_names latest_point =
        firstNonZero [threePointMsg.arm_cmd.joint_names.length, latest_point.positions.length,
          latest_point.velocities.length, latest_point.effort.length] ∧
      num_joints threePointMsg.arm_cmd.joint_names latest_point = specNumJoints threePointMsg ∧
      (threePointMsg.arm_cmd.joint_names.length = 0 ∧ latest_point.positions.length = 0 ∧
          latest_point.velocities.length = 0 ∧ latest_point.effort.length = 0 →
        num_joints threePointMsg.arm_cmd.joint_names latest_point = 0) :=
  num_joints_eq_firstNonZero threePointMsg (by decide)

/-- C5: for a message whose last point is `latest_point` and whose joint count is
positive, each of the three numeric outputs has one slot per joint, and slot `i` holds
the value `i` of the corresponding field of the last point when the field has one and
`0.0` otherwise; values of a field at indices from the joint count on are dropped. -/
theorem decode_numeric_fields {D : Type} [Float64 D] (ros_msg : RobotCmd D)
    (outputs : Outputs D) (latest_point : TrajectoryPoint D)
    (hlast : ros_msg.arm_cmd.points.getLast? = some latest_point)
    (hn : 0 < num_joints ros_msg.arm_cmd.joint_names latest_point) :
    ∃ o, decode ros_msg outputs = some o ∧
      o.armPositionCmd =
        (List.range (num_joints ros_msg.arm_cmd.joint_names latest_point)).map
          (fun i => if h : i < latest_point.positions.length
            then latest_point.positions[i] else 0) ∧
      o.armVelocityCmd =
        (List.range (num_joints ros_msg.arm_cmd.joint_names latest_point)).map
          (fun i => if h : i < latest_point.velocities.length
            then latest_point.velocities[i] else 0) ∧
      o.armEffortCmd =
        (List.range (num_joints ros_msg.arm_cmd.joint_names latest_point)).map
          (fun i => if h : i < latest_point.effort.length
            then latest_point.effort[i] else 0) := by
  unfold decode
  rw [processArmCmd_last _ _ latest_point hlast, if_pos hn]
  refine ⟨_, rfl, ?_, ?_, ?_⟩ <;>
    exact List.map_congr_left (fun i _ => getD_eq_dite _ i 0)

/-- C5, at the padding scenario: names `a`, `b`, positions `[1.0]`, no velocities,
no effort. -/
theorem decode_numeric_fields_witness :
    ∃ o, decode paddingMsg freshOutputs = some o ∧
      o.armPositionCmd = [1, 0] ∧ o.armVelocityCmd = [0, 0] ∧ o.armEffortCmd = [0, 0] := by
  obtain ⟨o, ho, h1, h2, h3⟩ :=
    decode_numeric_fields paddingMsg freshOutputs ⟨[1], [], []⟩ (by decide) (by decide)
  exact ⟨o, ho, h1.trans (by decide), h2.trans (by decide), h3.trans (by decide)⟩

/-- C6, what the code does: a joint name that holds a NUL is cut at it.  The message
names its joints `a`, NUL, `b` and `c`; the joint-name output is `a`, `c`, which is not
the list of names of the message. -/
theorem decode_joint_name_cut_at_nul :
    (decode (sampleMsg ["a\x00b", "c"] [⟨[1], [], []⟩]) freshOutputs).map
        (fun o => o.armJointNames) = some ["a", "c"] ∧
    (decode (sampleMsg ["a\x00b", "c"] [⟨[1], [], []⟩]) freshOutputs).map
        (fun o => o.armJointNames) ≠
      some (sampleMsg ["a\x00b", "c"] [⟨[1], [], []⟩]).arm_cmd.joint_names := by
  constructor <;> decide

/-- C6, amended: for a message whose last point is `latest_point` and whose joint
count is positive, the joint-name output has one slot per joint, and slot `i` holds the
name `i` of the message, read as a C string (its characters before the first NUL, the
whole name when it holds no NUL), when the message has one and otherwise `joint_`
followed by the decimal digits of `i`; when the message has no joint names every slot
is of that second kind. -/
theorem decode_joint_names {D : Type} [Float64 D] (ros_msg : RobotCmd D)
    (outputs : Outputs D) (latest_point : TrajectoryPoint D)
    (hlast : ros_msg.arm_cmd.points.getLast? = some latest_point)
    (hn : 0 < num_joints ros_msg.arm_cmd.joint_names latest_point) :
    ∃ o, decode ros_msg outputs = some o ∧
      o.armJointNames =
        (List.range (num_joints ros_msg.arm_cmd.joint_names latest_point)).map
          (fun i => if h : i < ros_msg.arm_cmd.joint_names.length
            then c_str ros_msg.arm_cmd.joint_names[i] else "joint_" ++ toString i) ∧
      (∀ name : String,
        c_str name = String.mk (name.data.takeWhile (fun c => c != Char.ofNat 0))) ∧
      (∀ name : String, (∀ c ∈ name.data, c ≠ Char.ofNat 0) → c_str name = name) ∧
      (ros_msg.arm_cmd.joint_names = [] →
        o.armJointNames =
          (List.range (num_joints ros_msg.arm_cmd.joint_names latest_point)).map
            (fun i => "joint_" ++ toString i)) := by
  unfold decode
  rw [processArmCmd_last _ _ latest_point hlast, if_pos hn]
  refine ⟨_, rfl, ?_, fun _ => rfl, c_str_of_no_nul, ?_⟩
  · exact List.map_congr_left (fun i _ => getD_map_eq_dite c_str _ i _)
  · intro hnil
    simp [hnil, default_name]

/-- C6, amended, at the scenario without names: positions `[1.0, 2.0, 3.0]`. -/
theorem decode_joint_names_witness :
    ∃ o, decode noNamesMsg freshOutputs = some o ∧
      o.armJointNames = ["joint_0", "joint_1", "joint_2"] := by
  obtain ⟨o, ho, h1, _⟩ :=
    decode_joint_names noNamesMsg freshOutputs ⟨[1, 2, 3], [], []⟩ (by decide) (by decide)
  exact ⟨o, ho, h1.trans (by decide)⟩

/-- C7: two messages with non-empty point sequences that agree outside the point
sequence and have the same last point are decoded to the same outputs from the same
prior outputs. -/
theorem decode_last_point_only {D : Type} [Float64 D] (msg1 msg2 : RobotCmd D)
    (outputs : Outputs D)
    (h1 : msg1.arm_cmd.points ≠ []) (h2 : msg2.arm_cmd.points ≠ [])
    (hstamp : msg1.stamp = msg2.stamp) (hyaw : msg1.yaw = msg2.yaw)
    (hgripper : msg1.gripper_cmd = msg2.gripper_cmd)
    (hchassis : msg1.chassis_cmd = msg2.chassis_cmd)
    (hnames : msg1.arm_cmd.joint_names = msg2.arm_cmd.joint_names)
    (hlast : msg1.arm_cmd.points.getLast? = msg2.arm_cmd.points.getLast?) :
    ∃ o, decode msg1 outputs = some o ∧ decode msg2 outputs = some o := by
  obtain ⟨p, hp⟩ := exists_latest_point _ h1
  obtain ⟨p2, hp2⟩ := exists_latest_point _ h2
  have hpp : p = p2 := by
    rw [hp, hp2] at hlast
    exact Option.some.inj hlast
  subst hpp
  have heq : decode msg1 outputs = decode msg2 outputs := by
    unfold decode
    rw [processArmCmd_last _ _ p hp, processArmCmd_last _ _ p hp2]
    simp only [hstamp, hyaw, hgripper, hchassis, hnames]
  obtain ⟨o, ho⟩ := decode_isSome msg1 outputs
  exact ⟨o, ho, heq ▸ ho⟩

/-- C7, at a message with three points and the message that has its last point only:
the outputs reflect the point of index 2. -/
theorem decode_last_point_only_witness :
    ∃ o, decode (sampleMsg ["a"] [⟨[1], [2], [3]⟩, ⟨[4], [5], [6]⟩, ⟨[7], [8], [9]⟩])
          staleOutputs = some o ∧
      decode (sampleMsg ["a"] [⟨[7], [8], [9]⟩]) staleOutputs = some o :=
  decode_last_point_only (sampleMsg ["a"] [⟨[1], [2], [3]⟩, ⟨[4], [5], [6]⟩, ⟨[7], [8], [9]⟩])
    (sampleMsg ["a"] [⟨[7], [8], [9]⟩]) staleOutputs
    (by decide) (by decide) rfl rfl rfl rfl rfl (by decide)

/-- C8: a message whose point sequence is empty is decoded to four arm outputs of
length 0, whatever the outputs held before and whatever joint names it carries. -/
theorem decode_empty_points {D : Type} [Float64 D] (ros_msg : RobotCmd D)
    (outputs : Outputs D) (h : ros_msg.arm_cmd.points = []) :
    ∃ o, decode ros_msg outputs = some o ∧
      o.armJointNames.length = 0 ∧ o.armPositionCmd.length = 0 ∧
      o.armVelocityCmd.length = 0 ∧ o.armEffortCmd.length = 0 := by
  unfold decode
  rw [processArmCmd_nil _ _ h]
  exact ⟨_, rfl, rfl, rfl, rfl, rfl⟩

/-- C8, at a message with a joint name and no point, decoded over outputs that hold
an arm command. -/
theorem decode_empty_points_witness :
    ∃ o, decode noPointsMsg staleOutputs = some o ∧
      o.armJointNames.length = 0 ∧ o.armPositionCmd.length = 0 ∧
      o.armVelocityCmd.length = 0 ∧ o.armEffortCmd.length = 0 :=
  decode_empty_points noPointsMsg staleOutputs rfl

/-- C3, what the code does: a message with one trajectory point and nothing in it has
joint count 0, and its decoding over outputs that hold an arm command of one joint
leaves the four arm outputs at length 1. -/
theorem decode_zero_joints_keeps_arm_lengths :
    specNumJoints zeroJointMsg = 0 ∧
    ∃ o, decode zeroJointMsg staleOutputs = some o ∧
      o.armJointNames.length = 1 ∧ o.armPositionCmd.length = 1 ∧
      o.armVelocityCmd.length = 1 ∧ o.armEffortCmd.length = 1 := by
  refine ⟨by decide, ?_⟩
  have h : zeroJointMsg.arm_cmd.points.getLast? = some ⟨[], [], []⟩ := by decide
  unfold decode
  rw [processArmCmd_last _ _ _ h]
  exact ⟨_, rfl, rfl, rfl, rfl, rfl⟩

/-- C9, what the code does: the same message, with one trajectory point and nothing in
it, is decoded to empty arm outputs over empty prior outputs and to the prior arm
command over outputs that hold one. -/
theorem decode_zero_joints_depends_on_prior :
    (decode zeroJointMsg freshOutputs).map
        (fun o => (o.armJointNames, o.armPositionCmd, o.armVelocityCmd, o.armEffortCmd)) =
      some ([], [], [], []) ∧
    (decode zeroJointMsg staleOutputs).map
        (fun o => (o.armJointNames, o.armPositionCmd, o.armVelocityCmd, o.armEffortCmd)) =
      some (["old"], [7], [8], [9]) := by
  constructor <;> decide

/-- C10: in a cycle whose `rcl_take` does not return `RCL_RET_OK` (no message
available, or an error), compute takes a message exactly when it returns true, and
then it sets `messageReceived` to false and leaves every other output as it was. -/
theorem compute_no_message {D : Type} [Float64 D] (state : NodeState) (inputs : Inputs)
    (rcl : Rcl D) (outputs : Outputs D) (h : rcl.take ≠ RCL_RET_OK) :
    ∃ r, compute state inputs rcl outputs = some r ∧
      (Call.rcl_take ∈ r.calls ↔ r.ret = true) ∧
      (Call.rcl_take ∈ r.calls → r.outputs = { outputs with messageReceived := false }) := by
  have htake : ∀ st, takeMessage st rcl outputs =
      some (st, { outputs with messageReceived := false }) := by
    intro st
    unfold takeMessage
    rw [if_neg h]
    split <;> rfl
  have hnot : Call.rcl_take ∉
      (bindSubscriber (checkRecreate state inputs).1 inputs rcl).2.2 := by
    intro hmem
    rcases bindSubscriber_calls _ inputs rcl _ hmem with h | h | h | h <;> cases h
  have hnot2 : Call.rcl_take ∉ (checkRecreate state inputs).2 := by
    rw [checkRecreate_calls]
    split <;> simp
  obtain ⟨r, hr, hcase⟩ := compute_cases state inputs rcl outputs
  refine ⟨r, hr, ?_⟩
  rcases hcase with ⟨_, _, p, hp, rfl⟩ | ⟨_, _, p, hp, rfl⟩ | ⟨_, _, rfl⟩
  · rw [htake] at hp
    cases hp
    simp
  · rw [htake] at hp
    cases hp
    simp
  · simp [hnot, hnot2]

/-- C10, at a bound node with an unchanged configuration, outputs that hold an arm
command, and `rcl_take` returning `RCL_RET_SUBSCRIPTION_TAKE_FAILED`: the cycle is one
`rcl_take` and only `messageReceived` changes. -/
theorem compute_no_message_witness :
    (∃ r, compute boundState sampleInputs (sampleRcl 401 noPointsMsg) staleOutputs = some r ∧
      (Call.rcl_take ∈ r.calls ↔ r.ret = true) ∧
      (Call.rcl_take ∈ r.calls → r.outputs = { staleOutputs with messageReceived := false })) ∧
    compute boundState sampleInputs (sampleRcl 401 noPointsMsg) staleOutputs =
      some { ret := true, state := boundState
             outputs := { staleOutputs with messageReceived := false }
             calls := [Call.rcl_take] } :=
  ⟨compute_no_message boundState sampleInputs (sampleRcl 401 noPointsMsg) staleOutputs
    (by decide), rfl⟩

/-! ## The bind, the take, reset and releaseInstance: lemmas -/

/-- The bind succeeds exactly when every creation step it runs succeeds: the two
context steps when the context is not initialized yet, the node and the subscription. -/
theorem bindSubscriber_ok_iff {D : Type} (state : NodeState) (inputs : Inputs) (rcl : Rcl D) :
    (bindSubscriber state inputs rcl).1 = true ↔
      (state.context_initialized = true ∨
        (rcl.init_options_init = RCL_RET_OK ∧ rcl.init = RCL_RET_OK)) ∧
      rcl.node_init = RCL_RET_OK ∧ rcl.subscription_init = RCL_RET_OK := by
  have e : (RCL_RET_OK = rcl.subscription_init) = (rcl.subscription_init = RCL_RET_OK) :=
    propext eq_comm
  unfold bindSubscriber initContext createSubscriber
  simp only [e, ne_eq]
  by_cases hc : state.context_initialized = true <;>
    by_cases h1 : rcl.init_options_init = RCL_RET_OK <;>
    by_cases h2 : rcl.init = RCL_RET_OK <;>
    by_cases h3 : rcl.node_init = RCL_RET_OK <;>
    by_cases h4 : rcl.subscription_init = RCL_RET_OK <;>
    simp [hc, h1, h2, h3, h4]

/-- The state after the bind: the configuration of the cycle is stored, the
subscription is bound exactly when the bind succeeded or it was bound before, the
context is initialized exactly when it was before or the two context steps succeeded. -/
theorem bindSubscriber_state {D : Type} (state : NodeState) (inputs : Inputs) (rcl : Rcl D) :
    (bindSubscriber state inputs rcl).2.1.last_topic_name = inputs.topicName ∧
    (bindSubscriber state inputs rcl).2.1.last_namespace = inputs.nodeNamespace ∧
    (bindSubscriber state inputs rcl).2.1.last_qos_profile = inputs.qosProfile ∧
    (bindSubscriber state inputs rcl).2.1.last_queue_size = inputs.queueSize ∧
    (bindSubscriber state inputs rcl).2.1.last_context = inputs.context ∧
    ((bindSubscriber state inputs rcl).2.1.sub_created = true ↔
      (bindSubscriber state inputs rcl).1 = true ∨ state.sub_created = true) ∧
    ((bindSubscriber state inputs rcl).2.1.context_initialized = true ↔
      state.context_initialized = true ∨
        (rcl.init_options_init = RCL_RET_OK ∧ rcl.init = RCL_RET_OK)) := by
  have e : (RCL_RET_OK = rcl.subscription_init) = (rcl.subscription_init = RCL_RET_OK) :=
    propext eq_comm
  unfold bindSubscriber initContext createSubscriber
  simp only [e, ne_eq]
  by_cases hc : state.context_initialized = true <;>
    by_cases h1 : rcl.init_options_init = RCL_RET_OK <;>
    by_cases h2 : rcl.init = RCL_RET_OK <;>
    by_cases h3 : rcl.node_init = RCL_RET_OK <;>
    by_cases h4 : rcl.subscription_init = RCL_RET_OK <;>
    simp [hc, h1, h2, h3, h4]

/-- The first call of the bind: the node creation when the context is initialized,
the creation of the init options otherwise. -/
theorem bindSubscriber_head {D : Type} (state : NodeState) (inputs : Inputs) (rcl : Rcl D) :
    (bindSubscriber state inputs rcl).2.2.head? =
      if state.context_initialized = true then
        some (Call.rcl_node_init "robot_cmd_subscriber"
          (if inputs.nodeNamespace = "" then "" else "/" ++ inputs.nodeNamespace))
      else some Call.rcl_init_options_init := by
  have e : (RCL_RET_OK = rcl.subscription_init) = (rcl.subscription_init = RCL_RET_OK) :=
    propext eq_comm
  unfold bindSubscriber initContext createSubscriber
  simp only [e, ne_eq]
  by_cases hc : state.context_initialized = true <;>
    by_cases h1 : rcl.init_options_init = RCL_RET_OK <;>
    by_cases h2 : rcl.init = RCL_RET_OK <;>
    by_cases h3 : rcl.node_init = RCL_RET_OK <;>
    by_cases h4 : rcl.subscription_init = RCL_RET_OK <;>
    simp [hc, h1, h2, h3, h4]

/-- The bind of a node whose context is initialized makes no context call. -/
theorem bindSubscriber_context_calls {D : Type} (state : NodeState) (inputs : Inputs)
    (rcl : Rcl D) (h : state.context_initialized = true) :
    Call.rcl_init_options_init ∉ (bindSubscriber state inputs rcl).2.2 ∧
    Call.rcl_init ∉ (bindSubscriber state inputs rcl).2.2 := by
  have e : (RCL_RET_OK = rcl.subscription_init) = (rcl.subscription_init = RCL_RET_OK) :=
    propext eq_comm
  unfold bindSubscriber initContext createSubscriber
  simp only [e, ne_eq]
  by_cases h3 : rcl.node_init = RCL_RET_OK <;>
    by_cases h4 : rcl.subscription_init = RCL_RET_OK <;>
    simp [h, h3, h4]

/-- A successful bind calls the node creation and the subscription creation with the
arguments computed from the inputs. -/
theorem bindSubscriber_ok_calls {D : Type} (state : NodeState) (inputs : Inputs) (rcl : Rcl D)
    (h : (bindSubscriber state inputs rcl).1 = true) :
    Call.rcl_node_init "robot_cmd_subscriber"
        (if inputs.nodeNamespace = "" then "" else "/" ++ inputs.nodeNamespace) ∈
      (bindSubscriber state inputs rcl).2.2 ∧
    Call.rcl_subscription_init inputs.topicName
        (sub_options_qos inputs.qosProfile inputs.queueSize) ∈
      (bindSubscriber state inputs rcl).2.2 := by
  revert h
  have e : (RCL_RET_OK = rcl.subscription_init) = (rcl.subscription_init = RCL_RET_OK) :=
    propext eq_comm
  unfold bindSubscriber initContext createSubscriber
  simp only [e, ne_eq]
  by_cases hc : state.context_initialized = true <;>
    by_cases h1 : rcl.init_options_init = RCL_RET_OK <;>
    by_cases h2 : rcl.init = RCL_RET_OK <;>
    by_cases h3 : rcl.node_init = RCL_RET_OK <;>
    by_cases h4 : rcl.subscription_init = RCL_RET_OK <;>
    simp [hc, h1, h2, h3, h4]

/-- The state after the check: `sub_created` is cleared when a recreation is asked
for, and nothing else changes. -/
theorem checkRecreate_state (state : NodeState) (inputs : Inputs) :
    (checkRecreate state inputs).1 =
      if need_recreate state inputs = true then { state with sub_created := false }
      else state := by
  unfold checkRecreate teardown
  split <;> rfl

/-- The check leaves a node unbound whenever a bind follows it. -/
theorem checkRecreate_unbound (state : NodeState) (inputs : Inputs)
    (h : state.sub_created = false ∨ need_recreate state inputs = true) :
    (checkRecreate state inputs).1.sub_created = false := by
  rw [checkRecreate_state]
  by_cases hn : need_recreate state inputs = true
  · rw [if_pos hn]
  · rw [if_neg hn]
    rcases h with h | h
    · exact h
    · exact absurd h hn

/-- The check does not touch the context flag. -/
theorem checkRecreate_context (state : NodeState) (inputs : Inputs) :
    (checkRecreate state inputs).1.context_initialized = state.context_initialized := by
  rw [checkRecreate_state]
  split <;> rfl

/-- The take of a cycle in which `rcl_take` returns `RCL_RET_OK`: the message is
decoded and `message_received` is set. -/
theorem takeMessage_received {D : Type} [Float64 D] (state : NodeState) (rcl : Rcl D)
    (outputs : Outputs D) (h : rcl.take = RCL_RET_OK) :
    ∃ o, decode rcl.ros_msg outputs = some o ∧
      takeMessage state rcl outputs = some ({ state with message_received := true }, o) := by
  obtain ⟨o, ho⟩ := decode_isSome rcl.ros_msg outputs
  refine ⟨o, ho, ?_⟩
  unfold takeMessage
  rw [if_pos h, ho]
  rfl

/-- The take of a cycle in which `rcl_take` does not return `RCL_RET_OK`: only
`messageReceived` is written. -/
theorem takeMessage_none {D : Type} [Float64 D] (state : NodeState) (rcl : Rcl D)
    (outputs : Outputs D) (h : rcl.take ≠ RCL_RET_OK) :
    takeMessage state rcl outputs = some (state, { outputs with messageReceived := false }) := by
  unfold takeMessage
  rw [if_neg h]
  split <;> rfl

/-- The take changes no member of the state but `message_received`. -/
theorem takeMessage_state {D : Type} [Float64 D] (state : NodeState) (rcl : Rcl D)
    (outputs : Outputs D) (p : NodeState × Outputs D)
    (h : takeMessage state rcl outputs = some p) :
    p.1.sub_created = state.sub_created ∧
    p.1.context_initialized = state.context_initialized ∧
    p.1.last_topic_name = state.last_topic_name ∧
    p.1.last_namespace = state.last_namespace ∧
    p.1.last_qos_profile = state.last_qos_profile ∧
    p.1.last_queue_size = state.last_queue_size ∧
    p.1.last_context = state.last_context := by
  by_cases hr : rcl.take = RCL_RET_OK
  · obtain ⟨o, _, ho⟩ := takeMessage_received state rcl outputs hr
    rw [ho] at h
    cases h
    exact ⟨rfl, rfl, rfl, rfl, rfl, rfl, rfl⟩
  · rw [takeMessage_none state rcl outputs hr] at h
    cases h
    exact ⟨rfl, rfl, rfl, rfl, rfl, rfl, rfl⟩

/-- The scalar and vector outputs after the decoding of a message, and the trigger. -/
theorem decode_fields {D : Type} [Float64 D] (ros_msg : RobotCmd D) (outputs : Outputs D) :
    ∃ o, decode ros_msg outputs = some o ∧
      o.yaw = ros_msg.yaw ∧ o.gripperCmd = ros_msg.gripper_cmd ∧
      o.messageReceived = true ∧
      o.timestamp = Float64.ofStamp ros_msg.stamp.sec ros_msg.stamp.nanosec ∧
      o.chassisLinearVel =
        { x := ros_msg.chassis_cmd.linear.x, y := ros_msg.chassis_cmd.linear.y
          z := ros_msg.chassis_cmd.linear.z } ∧
      o.chassisAngularVel =
        { x := ros_msg.chassis_cmd.angular.x, y := ros_msg.chassis_cmd.angular.y
          z := ros_msg.chassis_cmd.angular.z } ∧
      o.execOut = 1 := by
  unfold decode
  cases h : ros_msg.arm_cmd.points.getLast? with
  | none =>
    rw [List.getLast?_eq_none_iff] at h
    rw [processArmCmd_nil _ _ h]
    exact ⟨_, rfl, rfl, rfl, rfl, rfl, rfl, rfl, rfl⟩
  | some latest_point =>
    rw [processArmCmd_last _ _ latest_point h]
    split <;> exact ⟨_, rfl, rfl, rfl, rfl, rfl, rfl, rfl, rfl⟩

/-- No call of the bind and no call of the check is `rcl_take`. -/
theorem rcl_take_not_before {D : Type} (state : NodeState) (inputs : Inputs) (rcl : Rcl D) :
    Call.rcl_take ∉ (checkRecreate state inputs).2 ++
      (bindSubscriber (checkRecreate state inputs).1 inputs rcl).2.2 := by
  intro hmem
  rcases List.mem_append.mp hmem with h | h
  · rw [checkRecreate_calls] at h
    split at h <;> simp at h
  · rcases bindSubscriber_calls _ inputs rcl _ h with h | h | h | h <;> cases h

/-- The take of a cycle happens exactly when compute returns true; the result of a
cycle with a take is the result of the take, and a cycle without one leaves the outputs
as they were. -/
theorem compute_take {D : Type} [Float64 D] (state : NodeState) (inputs : Inputs)
    (rcl : Rcl D) (outputs : Outputs D) :
    ∃ r, compute state inputs rcl outputs = some r ∧
      (Call.rcl_take ∈ r.calls ↔ r.ret = true) ∧
      (r.ret = true → ∃ st, takeMessage st rcl outputs = some (r.state, r.outputs)) ∧
      (r.ret = false → r.outputs = outputs) := by
  have hnot := rcl_take_not_before state inputs rcl
  obtain ⟨r, hr, hcase⟩ := compute_cases state inputs rcl outputs
  refine ⟨r, hr, ?_⟩
  rcases hcase with ⟨_, _, p, hp, rfl⟩ | ⟨_, _, p, hp, rfl⟩ | ⟨_, _, rfl⟩
  · exact ⟨by simp, fun _ => ⟨_, hp⟩, by simp⟩
  · exact ⟨by simp, fun _ => ⟨_, hp⟩, by simp⟩
  · exact ⟨by simpa using hnot, by simp, fun _ => rfl⟩

/-! ## Claims on the poll cycle and the life cycle -/

/-- C11: in a cycle whose `rcl_take` returns `RCL_RET_OK`, compute takes the message
exactly when it returns true, and then `messageReceived` is true and `yaw`,
`gripperCmd` and the components of `chassisLinearVel` and `chassisAngularVel` are the
fields `yaw`, `gripper_cmd`, `chassis_cmd.linear.x/y/z` and `chassis_cmd.angular.x/y/z`
of the message, whatever the outputs held before. -/
theorem compute_received {D : Type} [Float64 D] (state : NodeState) (inputs : Inputs)
    (rcl : Rcl D) (outputs : Outputs D) (h : rcl.take = RCL_RET_OK) :
    ∃ r, compute state inputs rcl outputs = some r ∧
      (Call.rcl_take ∈ r.calls ↔ r.ret = true) ∧
      (Call.rcl_take ∈ r.calls →
        r.outputs.messageReceived = true ∧
        r.outputs.yaw = rcl.ros_msg.yaw ∧
        r.outputs.gripperCmd = rcl.ros_msg.gripper_cmd ∧
        r.outputs.chassisLinearVel.x = rcl.ros_msg.chassis_cmd.linear.x ∧
        r.outputs.chassisLinearVel.y = rcl.ros_msg.chassis_cmd.linear.y ∧
        r.outputs.chassisLinearVel.z = rcl.ros_msg.chassis_cmd.linear.z ∧
        r.outputs.chassisAngularVel.x = rcl.ros_msg.chassis_cmd.angular.x ∧
        r.outputs.chassisAngularVel.y = rcl.ros_msg.chassis_cmd.angular.y ∧
        r.outputs.chassisAngularVel.z = rcl.ros_msg.chassis_cmd.angular.z) := by
  obtain ⟨r, hr, hiff, htrue, _⟩ := compute_take state inputs rcl outputs
  refine ⟨r, hr, hiff, ?_⟩
  intro hmem
  obtain ⟨st, hst⟩ := htrue (hiff.mp hmem)
  obtain ⟨o, ho, hto⟩ := takeMessage_received st rcl outputs h
  obtain ⟨o2, ho2, f1, f2, f3, _, f5, f6, _⟩ := decode_fields rcl.ros_msg outputs
  rw [ho] at ho2
  cases ho2
  rw [hto] at hst
  have ho : r.outputs = o := (congrArg Prod.snd (Option.some.inj hst)).symm
  rw [ho, f5, f6]
  exact ⟨f3, f1, f2, rfl, rfl, rfl, rfl, rfl, rfl⟩

/-- C11, at a bound node with an unchanged configuration and outputs that hold an
earlier command: the cycle is one `rcl_take` and the outputs are those of the message. -/
theorem compute_received_witness :
    (∃ r, compute boundState sampleInputs (sampleRcl 0 noPointsMsg) staleOutputs = some r ∧
      (Call.rcl_take ∈ r.calls ↔ r.ret = true) ∧
      (Call.rcl_take ∈ r.calls →
        r.outputs.messageReceived = true ∧
        r.outputs.yaw = 2 ∧ r.outputs.gripperCmd = 3 ∧
        r.outputs.chassisLinearVel.x = 1 ∧ r.outputs.chassisLinearVel.y = 2 ∧
        r.outputs.chassisLinearVel.z = 3 ∧
        r.outputs.chassisAngularVel.x = 4 ∧ r.outputs.chassisAngularVel.y = 5 ∧
        r.outputs.chassisAngularVel.z = 6)) ∧
    (compute boundState sampleInputs (sampleRcl 0 noPointsMsg) staleOutputs).map
        (fun r => (r.ret, r.calls)) = some (true, [Call.rcl_take]) :=
  ⟨compute_received boundState sampleInputs (sampleRcl 0 noPointsMsg) staleOutputs rfl, rfl⟩

/-- C12: compute writes the trigger `execOut`, to the value 1, in the cycles that take
a message and receive one, and in no other cycle: after a cycle with a received message
`execOut` is 1, and after every other cycle (no message available, an error of the take,
a failed bind) it has the value it had before.  So from a value other than 1 it becomes
1 exactly in the cycles with a received message. -/
theorem compute_execOut {D : Type} [Float64 D] (state : NodeState) (inputs : Inputs)
    (rcl : Rcl D) (outputs : Outputs D) :
    ∃ r, compute state inputs rcl outputs = some r ∧
      (Call.rcl_take ∈ r.calls ∧ rcl.take = RCL_RET_OK → r.outputs.execOut = 1) ∧
      (¬ (Call.rcl_take ∈ r.calls ∧ rcl.take = RCL_RET_OK) →
        r.outputs.execOut = outputs.execOut) ∧
      (outputs.execOut ≠ 1 →
        (r.outputs.execOut = 1 ↔ Call.rcl_take ∈ r.calls ∧ rcl.take = RCL_RET_OK)) := by
  obtain ⟨r, hr, hiff, htrue, hfalse⟩ := compute_take state inputs rcl outputs
  have h1 : Call.rcl_take ∈ r.calls ∧ rcl.take = RCL_RET_OK → r.outputs.execOut = 1 := by
    rintro ⟨hmem, hok⟩
    obtain ⟨st, hst⟩ := htrue (hiff.mp hmem)
    obtain ⟨o, ho, hto⟩ := takeMessage_received st rcl outputs hok
    obtain ⟨o2, ho2, _, _, _, _, _, _, f7⟩ := decode_fields rcl.ros_msg outputs
    rw [ho] at ho2
    cases ho2
    rw [hto] at hst
    have ho : r.outputs = o := (congrArg Prod.snd (Option.some.inj hst)).symm
    rw [ho, f7]
  have h2 : ¬ (Call.rcl_take ∈ r.calls ∧ rcl.take = RCL_RET_OK) →
      r.outputs.execOut = outputs.execOut := by
    intro hn
    cases hret : r.ret
    · rw [hfalse hret]
    · obtain ⟨st, hst⟩ := htrue hret
      have hne : rcl.take ≠ RCL_RET_OK := fun hok => hn ⟨hiff.mpr hret, hok⟩
      rw [takeMessage_none st rcl outputs hne] at hst
      have ho : r.outputs = { outputs with messageReceived := false } :=
        (congrArg Prod.snd (Option.some.inj hst)).symm
      rw [ho]
  refine ⟨r, hr, h1, h2, ?_⟩
  intro hne
  constructor
  · intro h
    by_contra hc
    exact hne ((h2 hc).symm.trans h)
  · exact h1

/-- C12, at three cycles of a node with inactive trigger: a received message, no
message available, and a bind that fails at the node creation. -/
theorem compute_execOut_witness :
    (∃ r, compute boundState sampleInputs (sampleRcl 0 noPointsMsg) freshOutputs = some r ∧
      (Call.rcl_take ∈ r.calls ∧ (sampleRcl 0 noPointsMsg).take = RCL_RET_OK →
        r.outputs.execOut = 1) ∧
      (¬ (Call.rcl_take ∈ r.calls ∧ (sampleRcl 0 noPointsMsg).take = RCL_RET_OK) →
        r.outputs.execOut = freshOutputs.execOut) ∧
      (freshOutputs.execOut ≠ 1 →
        (r.outputs.execOut = 1 ↔
          Call.rcl_take ∈ r.calls ∧ (sampleRcl 0 noPointsMsg).take = RCL_RET_OK))) ∧
    (compute boundState sampleInputs (sampleRcl 0 noPointsMsg) freshOutputs).map
        (fun r => r.outputs.execOut) = some 1 ∧
    (compute boundState sampleInputs (sampleRcl 401 noPointsMsg) freshOutputs).map
        (fun r => r.outputs.execOut) = some 0 ∧
    (compute unboundState sampleInputs nodeInitFails freshOutputs).map
        (fun r => (r.ret, r.outputs.execOut)) = some (false, 0) :=
  ⟨compute_execOut boundState sampleInputs (sampleRcl 0 noPointsMsg) freshOutputs,
    rfl, rfl, rfl⟩

/-- The outputs after `reset`: every output is at its default except `execOut`, which
`reset` does not write. -/
theorem reset_outputs {D : Type} [Zero D] (state : NodeState) (outputs : Outputs D) :
    (reset state outputs).2.1 =
      { yaw := 0, gripperCmd := 0, timestamp := 0
        chassisLinearVel := { x := 0, y := 0, z := 0 }
        chassisAngularVel := { x := 0, y := 0, z := 0 }
        armJointNames := [], armPositionCmd := [], armVelocityCmd := [], armEffortCmd := []
        messageReceived := false, execOut := outputs.execOut } := by
  unfold reset
  simp only [resize_zero]

/-- The state after `reset`: the subscription is unbound, `message_received` is
cleared, and the context flag and the stored configuration are as before. -/
theorem reset_state {D : Type} [Zero D] (state : NodeState) (outputs : Outputs D) :
    (reset state outputs).1 =
      { state with sub_created := false, message_received := false } := by
  unfold reset teardown
  cases h : state.sub_created <;> simp [h]

/-- After `reset` and one cycle in which no message is available, `yaw`, `gripperCmd`
and `timestamp` are 0.0, both chassis vectors are zero, the four arm outputs have length
0 and `messageReceived` is false; neither of the two writes `execOut`, which has the
value it had when `reset` was called. -/
theorem reset_then_poll_defaults {D : Type} [Float64 D] (state : NodeState)
    (outputs : Outputs D) (inputs : Inputs) (rcl : Rcl D)
    (h : rcl.take = RCL_RET_SUBSCRIPTION_TAKE_FAILED) :
    ∃ r, compute (reset state outputs).1 inputs rcl (reset state outputs).2.1 = some r ∧
      r.outputs.yaw = 0 ∧ r.outputs.gripperCmd = 0 ∧ r.outputs.timestamp = 0 ∧
      r.outputs.chassisLinearVel = { x := 0, y := 0, z := 0 } ∧
      r.outputs.chassisAngularVel = { x := 0, y := 0, z := 0 } ∧
      r.outputs.armJointNames.length = 0 ∧ r.outputs.armPositionCmd.length = 0 ∧
      r.outputs.armVelocityCmd.length = 0 ∧ r.outputs.armEffortCmd.length = 0 ∧
      r.outputs.messageReceived = false ∧
      r.outputs.execOut = outputs.execOut := by
  have hne : rcl.take ≠ RCL_RET_OK := by
    rw [h]
    decide
  obtain ⟨r, hr, _, htrue, hfalse⟩ :=
    compute_take (reset state outputs).1 inputs rcl (reset state outputs).2.1
  refine ⟨r, hr, ?_⟩
  have ho : r.outputs = (reset state outputs).2.1 ∨
      r.outputs = { (reset state outputs).2.1 with messageReceived := false } := by
    cases hret : r.ret
    · exact Or.inl (hfalse hret)
    · obtain ⟨st, hst⟩ := htrue hret
      rw [takeMessage_none st rcl _ hne] at hst
      exact Or.inr (congrArg Prod.snd (Option.some.inj hst)).symm
  rw [reset_outputs] at ho
  rcases ho with ho | ho <;> rw [ho] <;>
    exact ⟨rfl, rfl, rfl, rfl, rfl, rfl, rfl, rfl, rfl, rfl, rfl⟩

/-- C13: from every state and every outputs, those left by a received message
included, once the host has consumed the trigger of the earlier cycle, `reset` followed
by one cycle in which no message is available leaves every output at its default:
`yaw`, `gripperCmd` and `timestamp` are 0.0, both chassis vectors are zero, the four arm
outputs have length 0, the trigger `execOut` is not active and `messageReceived` is
false.  Neither `reset` nor that cycle writes `execOut`: without the host, it keeps the
value it had when `reset` was called. -/
theorem reset_then_poll_all_defaults {D : Type} [Float64 D] (state : NodeState)
    (outputs : Outputs D) (inputs : Inputs) (rcl : Rcl D)
    (h : rcl.take = RCL_RET_SUBSCRIPTION_TAKE_FAILED) :
    (∃ r, compute (reset state (hostConsumesTrigger outputs)).1 inputs rcl
          (reset state (hostConsumesTrigger outputs)).2.1 = some r ∧
      r.outputs.yaw = 0 ∧ r.outputs.gripperCmd = 0 ∧ r.outputs.timestamp = 0 ∧
      r.outputs.chassisLinearVel = { x := 0, y := 0, z := 0 } ∧
      r.outputs.chassisAngularVel = { x := 0, y := 0, z := 0 } ∧
      r.outputs.armJointNames.length = 0 ∧ r.outputs.armPositionCmd.length = 0 ∧
      r.outputs.armVelocityCmd.length = 0 ∧ r.outputs.armEffortCmd.length = 0 ∧
      r.outputs.messageReceived = false ∧
      r.outputs.execOut = 0) ∧
    (∃ r, compute (reset state outputs).1 inputs rcl (reset state outputs).2.1 = some r ∧
      (reset state outputs).2.1.execOut = outputs.execOut ∧
      r.outputs.execOut = outputs.execOut) := by
  constructor
  · exact reset_then_poll_defaults state (hostConsumesTrigger outputs) inputs rcl h
  · obtain ⟨r, hr, _, _, _, _, _, _, _, _, _, _, he⟩ :=
      reset_then_poll_defaults state outputs inputs rcl h
    refine ⟨r, hr, ?_, he⟩
    rw [reset_outputs]

/-- C13, at the state and the outputs left by a received message that commanded one
joint: after the host has consumed the trigger, `reset` and a cycle without message
leave the defaults. -/
theorem reset_then_poll_all_defaults_witness :
    (∃ r, compute (reset boundState (hostConsumesTrigger staleOutputs)).1 sampleInputs
          (sampleRcl 401 paddingMsg)
          (reset boundState (hostConsumesTrigger staleOutputs)).2.1 = some r ∧
      r.outputs.yaw = 0 ∧ r.outputs.gripperCmd = 0 ∧ r.outputs.timestamp = 0 ∧
      r.outputs.chassisLinearVel = { x := 0, y := 0, z := 0 } ∧
      r.outputs.chassisAngularVel = { x := 0, y := 0, z := 0 } ∧
      r.outputs.armJointNames.length = 0 ∧ r.outputs.armPositionCmd.length = 0 ∧
      r.outputs.armVelocityCmd.length = 0 ∧ r.outputs.armEffortCmd.length = 0 ∧
      r.outputs.messageReceived = false ∧
      r.outputs.execOut = 0) ∧
    (∃ r, compute (reset boundState staleOutputs).1 sampleInputs (sampleRcl 401 paddingMsg)
          (reset boundState staleOutputs).2.1 = some r ∧
      (reset boundState staleOutputs).2.1.execOut = staleOutputs.execOut ∧
      r.outputs.execOut = staleOutputs.execOut) :=
  reset_then_poll_all_defaults boundState staleOutputs sampleInputs
    (sampleRcl 401 paddingMsg) rfl

/-- C14: `reset` leaves the subscription unbound and leaves the context flag and the
stored configuration as they were; the next compute starts with a creation call, the
node creation when the context is initialized and the creation of the init options
otherwise, whatever its inputs are, the stored configuration included. -/
theorem reset_unbinds_next_compute_binds {D : Type} [Float64 D] (state : NodeState)
    (outputs : Outputs D) (inputs : Inputs) (rcl : Rcl D) :
    (reset state outputs).1.sub_created = false ∧
    (reset state outputs).1.context_initialized = state.context_initialized ∧
    (reset state outputs).1.last_topic_name = state.last_topic_name ∧
    (reset state outputs).1.last_namespace = state.last_namespace ∧
    (reset state outputs).1.last_qos_profile = state.last_qos_profile ∧
    (reset state outputs).1.last_queue_size = state.last_queue_size ∧
    (reset state outputs).1.last_context = state.last_context ∧
    ∃ r, compute (reset state outputs).1 inputs rcl (reset state outputs).2.1 = some r ∧
      r.calls.head? =
        if state.context_initialized = true then
          some (Call.rcl_node_init "robot_cmd_subscriber"
            (if inputs.nodeNamespace = "" then "" else "/" ++ inputs.nodeNamespace))
        else some Call.rcl_init_options_init := by
  refine ⟨?_, ?_, ?_, ?_, ?_, ?_, ?_, ?_⟩
  · rw [reset_state]
  · rw [reset_state]
  · rw [reset_state]
  · rw [reset_state]
  · rw [reset_state]
  · rw [reset_state]
  · rw [reset_state]
  · have hs : (reset state outputs).1.sub_created = false := by rw [reset_state]
    have hc : (reset state outputs).1.context_initialized = state.context_initialized := by
      rw [reset_state]
    have hn : need_recreate (reset state outputs).1 inputs = false := by
      unfold need_recreate
      simp [hs]
    have hcheck : checkRecreate (reset state outputs).1 inputs = ((reset state outputs).1, []) := by
      unfold checkRecreate
      simp [hn]
    have hhead := bindSubscriber_head (reset state outputs).1 inputs rcl
    rw [hc] at hhead
    obtain ⟨r, hr, hcase⟩ :=
      compute_cases (reset state outputs).1 inputs rcl (reset state outputs).2.1
    refine ⟨r, hr, ?_⟩
    rw [hcheck] at hcase
    rcases hcase with ⟨hb, _⟩ | ⟨_, _, p, _, rfl⟩ | ⟨_, _, rfl⟩
    · rw [hs] at hb
      cases hb
    · rw [← hhead]
      cases hl : (bindSubscriber (reset state outputs).1 inputs rcl).2.2 with
      | nil =>
        rw [hl] at hhead
        split at hhead <;> cases hhead
      | cons c cs => simp
    · rw [← hhead]
      simp

/-- C15: after `releaseInstance` both `sub_created` and `context_initialized` are
false, and a second `releaseInstance` makes no call and leaves the state as it is. -/
theorem releaseInstance_idempotent (state : NodeState) :
    (releaseInstance state).1.sub_created = false ∧
    (releaseInstance state).1.context_initialized = false ∧
    releaseInstance (releaseInstance state).1 = ((releaseInstance state).1, []) := by
  unfold releaseInstance teardown
  cases hs : state.sub_created <;> cases hc : state.context_initialized <;> simp [hs, hc]

/-- C16: in a cycle that attempts a bind (the node is not bound, or its configuration
changed) and in which a creation step fails (the init options or the context when the
context is not initialized yet, the node, or the subscription), compute returns false,
the state ends unbound, no message is taken and the outputs are as before; the context
is initialized afterwards exactly when it was before or the two context steps of this
cycle succeeded. -/
theorem compute_bind_failure {D : Type} [Float64 D] (state : NodeState) (inputs : Inputs)
    (rcl : Rcl D) (outputs : Outputs D)
    (hbind : state.sub_created = false ∨ need_recreate state inputs = true)
    (hfail : (state.context_initialized = false ∧
        (rcl.init_options_init ≠ RCL_RET_OK ∨ rcl.init ≠ RCL_RET_OK)) ∨
      rcl.node_init ≠ RCL_RET_OK ∨ rcl.subscription_init ≠ RCL_RET_OK) :
    ∃ r, compute state inputs rcl outputs = some r ∧
      r.ret = false ∧ r.state.sub_created = false ∧ Call.rcl_take ∉ r.calls ∧
      r.outputs = outputs ∧
      (r.state.context_initialized = true ↔
        state.context_initialized = true ∨
          (rcl.init_options_init = RCL_RET_OK ∧ rcl.init = RCL_RET_OK)) := by
  have hok : (bindSubscriber (checkRecreate state inputs).1 inputs rcl).1 = false := by
    cases hb : (bindSubscriber (checkRecreate state inputs).1 inputs rcl).1
    · rfl
    · exfalso
      rw [bindSubscriber_ok_iff, checkRecreate_context] at hb
      obtain ⟨hctx, hnode, hsub⟩ := hb
      rcases hfail with ⟨hc, hf⟩ | hf | hf
      · rcases hctx with hctx | ⟨h1, h2⟩
        · rw [hc] at hctx
          cases hctx
        · rcases hf with hf | hf
          · exact hf h1
          · exact hf h2
      · exact hf hnode
      · exact hf hsub
  have hstate := bindSubscriber_state (checkRecreate state inputs).1 inputs rcl
  rw [checkRecreate_context, checkRecreate_unbound state inputs hbind, hok] at hstate
  obtain ⟨_, _, _, _, _, hsub, hctx⟩ := hstate
  rw [compute_rebind state inputs rcl outputs hbind, hok]
  refine ⟨_, rfl, rfl, ?_, rcl_take_not_before state inputs rcl, rfl, hctx⟩
  cases hs : (bindSubscriber (checkRecreate state inputs).1 inputs rcl).2.1.sub_created
  · rfl
  · exact absurd (hsub.mp hs) (by simp)

/-- C16, at a node before its first cycle whose node creation fails: the context is
initialized by the cycle, the node is not bound and no message is taken. -/
theorem compute_bind_failure_witness :
    (∃ r, compute unboundState sampleInputs nodeInitFails staleOutputs = some r ∧
      r.ret = false ∧ r.state.sub_created = false ∧ Call.rcl_take ∉ r.calls ∧
      r.outputs = staleOutputs ∧
      (r.state.context_initialized = true ↔
        unboundState.context_initialized = true ∨
          (nodeInitFails.init_options_init = RCL_RET_OK ∧
            nodeInitFails.init = RCL_RET_OK))) ∧
    (compute unboundState sampleInputs nodeInitFails staleOutputs).map
        (fun r => (r.state.context_initialized, r.calls)) =
      some (true, [Call.rcl_init_options_init, Call.rcl_init,
        Call.rcl_node_init "robot_cmd_subscriber" ""]) :=
  ⟨compute_bind_failure unboundState sampleInputs nodeInitFails staleOutputs
    (Or.inl rfl) (Or.inr (Or.inl (by decide))), rfl⟩

/-- C17: a cycle of a node whose context is initialized makes no context call (no
creation of init options, no `rcl_init`, no finalization of init options, no
`rcl_shutdown`) and leaves the context initialized, whatever the configuration and the
outcomes of the bind and the take; `reset` leaves it initialized too, and
`releaseInstance` clears the flag. -/
theorem compute_keeps_context {D : Type} [Float64 D] (state : NodeState) (inputs : Inputs)
    (rcl : Rcl D) (outputs : Outputs D) (h : state.context_initialized = true) :
    (∃ r, compute state inputs rcl outputs = some r ∧
      Call.rcl_init_options_init ∉ r.calls ∧ Call.rcl_init ∉ r.calls ∧
      Call.rcl_init_options_fini ∉ r.calls ∧ Call.rcl_shutdown ∉ r.calls ∧
      r.state.context_initialized = true) ∧
    (reset state outputs).1.context_initialized = true ∧
    (releaseInstance state).1.context_initialized = false := by
  refine ⟨?_, ?_, ?_⟩
  · have hpre : (checkRecreate state inputs).1.context_initialized = true := by
      rw [checkRecreate_context, h]
    have hb := bindSubscriber_context_calls (checkRecreate state inputs).1 inputs rcl hpre
    have hbs := (bindSubscriber_state (checkRecreate state inputs).1 inputs rcl).2.2.2.2.2.2
    have hctx : (bindSubscriber (checkRecreate state inputs).1 inputs rcl).2.1.context_initialized
        = true := hbs.mpr (Or.inl hpre)
    have hc : ∀ c ∈ (checkRecreate state inputs).2,
        c = Call.rcl_subscription_fini ∨ c = Call.rcl_node_fini := by
      intro c hmem
      rw [checkRecreate_calls] at hmem
      split at hmem <;> simp at hmem
      exact hmem
    have hc1 : Call.rcl_init_options_init ∉ (checkRecreate state inputs).2 := by
      intro hmem
      rcases hc _ hmem with h | h <;> cases h
    have hc2 : Call.rcl_init ∉ (checkRecreate state inputs).2 := by
      intro hmem
      rcases hc _ hmem with h | h <;> cases h
    obtain ⟨r, hr, hcalls⟩ := compute_calls state inputs rcl outputs
    have hfini : Call.rcl_init_options_fini ∉ r.calls := by
      intro hmem
      rcases hcalls _ hmem with h | h | h | h | h | h | h <;> cases h
    have hshut : Call.rcl_shutdown ∉ r.calls := by
      intro hmem
      rcases hcalls _ hmem with h | h | h | h | h | h | h <;> cases h
    obtain ⟨r2, hr2, hcase⟩ := compute_cases state inputs rcl outputs
    rw [hr] at hr2
    cases hr2
    refine ⟨r, hr, ?_, ?_, hfini, hshut, ?_⟩
    · rcases hcase with ⟨_, _, p, _, rfl⟩ | ⟨_, _, p, _, rfl⟩ | ⟨_, _, rfl⟩
      · simp
      · simp [hc1, hb.1]
      · simp [hc1, hb.1]
    · rcases hcase with ⟨_, _, p, _, rfl⟩ | ⟨_, _, p, _, rfl⟩ | ⟨_, _, rfl⟩
      · simp
      · simp [hc2, hb.2]
      · simp [hc2, hb.2]
    · rcases hcase with ⟨_, _, p, hp, rfl⟩ | ⟨_, _, p, hp, rfl⟩ | ⟨_, _, rfl⟩
      · rw [(takeMessage_state _ _ _ _ hp).2.1, h]
      · rw [(takeMessage_state _ _ _ _ hp).2.1, hctx]
      · exact hctx
  · rw [reset_state]
    exact h
  · unfold releaseInstance teardown
    cases hs : state.sub_created <;> simp [hs, h]

/-- C17, at a bound node whose configuration changed: the cycle finalizes the old
subscription and node and creates new ones, without any context call. -/
theorem compute_keeps_context_witness :
    ((∃ r, compute boundState changedInputs (sampleRcl 401 noPointsMsg) freshOutputs = some r ∧
      Call.rcl_init_options_init ∉ r.calls ∧ Call.rcl_init ∉ r.calls ∧
      Call.rcl_init_options_fini ∉ r.calls ∧ Call.rcl_shutdown ∉ r.calls ∧
      r.state.context_initialized = true) ∧
    (reset boundState freshOutputs).1.context_initialized = true ∧
    (releaseInstance boundState).1.context_initialized = false) ∧
    (compute boundState changedInputs (sampleRcl 401 noPointsMsg) freshOutputs).map
        (fun r => r.calls) =
      some [Call.rcl_subscription_fini, Call.rcl_node_fini,
        Call.rcl_node_init "robot_cmd_subscriber" "",
        Call.rcl_subscription_init "/other_cmd"
          { reliability := Reliability.RELIABLE, durability := Durability.VOLATILE, depth := 10 },
        Call.rcl_take] :=
  ⟨compute_keeps_context boundState changedInputs (sampleRcl 401 noPointsMsg) freshOutputs rfl,
    rfl⟩

/-- C18: in a cycle of a bound node whose configuration changed, whatever the two
finalize calls return, compute calls `rcl_subscription_fini`, then `rcl_node_fini`,
then the first creation call of the rebind; the result of the cycle does not depend on
the two return codes, compute returns true exactly when the creation steps of the rebind
succeed, and the subscription ends bound exactly when compute returns true. -/
theorem teardown_best_effort {D : Type} [Float64 D] (state : NodeState) (inputs : Inputs)
    (rcl : Rcl D) (outputs : Outputs D) (subscription_fini node_fini : Int)
    (h : need_recreate state inputs = true) :
    ∃ r, compute state inputs
          { rcl with subscription_fini := subscription_fini, node_fini := node_fini }
          outputs = some r ∧
      compute state inputs rcl outputs = some r ∧
      (∃ rest, r.calls = Call.rcl_subscription_fini :: Call.rcl_node_fini :: rest ∧
        rest.head? =
          if state.context_initialized = true then
            some (Call.rcl_node_init "robot_cmd_subscriber"
              (if inputs.nodeNamespace = "" then "" else "/" ++ inputs.nodeNamespace))
          else some Call.rcl_init_options_init) ∧
      (checkRecreate state inputs).1.sub_created = false ∧
      (r.state.sub_created = true ↔ r.ret = true) ∧
      (r.ret = true ↔
        (state.context_initialized = true ∨
          (rcl.init_options_init = RCL_RET_OK ∧ rcl.init = RCL_RET_OK)) ∧
        rcl.node_init = RCL_RET_OK ∧ rcl.subscription_init = RCL_RET_OK) := by
  have hind : compute state inputs
      { rcl with subscription_fini := subscription_fini, node_fini := node_fini } outputs =
      compute state inputs rcl outputs := rfl
  have hun := checkRecreate_unbound state inputs (Or.inr h)
  have hhead := bindSubscriber_head (checkRecreate state inputs).1 inputs rcl
  rw [checkRecreate_context] at hhead
  have hokiff := bindSubscriber_ok_iff (checkRecreate state inputs).1 inputs rcl
  rw [checkRecreate_context] at hokiff
  have hsub := (bindSubscriber_state (checkRecreate state inputs).1 inputs rcl).2.2.2.2.2.1
  rw [hun] at hsub
  have hcalls : (checkRecreate state inputs).2 =
      [Call.rcl_subscription_fini, Call.rcl_node_fini] := by
    rw [checkRecreate_calls, if_pos h]
  have hne : (bindSubscriber (checkRecreate state inputs).1 inputs rcl).2.2 ≠ [] := by
    intro hnil
    rw [hnil] at hhead
    split at hhead <;> cases hhead
  have hhead2 : ∀ l : List Call,
      ((bindSubscriber (checkRecreate state inputs).1 inputs rcl).2.2 ++ l).head? =
      (bindSubscriber (checkRecreate state inputs).1 inputs rcl).2.2.head? := by
    intro l
    cases hl : (bindSubscriber (checkRecreate state inputs).1 inputs rcl).2.2 with
    | nil => exact absurd hl hne
    | cons c cs => rfl
  rw [hind]
  obtain ⟨r, hr, hcase⟩ := compute_cases state inputs rcl outputs
  refine ⟨r, hr, hr, ?_, hun, ?_, ?_⟩
  · rcases hcase with ⟨_, hn, _⟩ | ⟨_, _, p, _, rfl⟩ | ⟨_, _, rfl⟩
    · rw [h] at hn
      cases hn
    · refine ⟨(bindSubscriber (checkRecreate state inputs).1 inputs rcl).2.2 ++
        [Call.rcl_take], ?_, ?_⟩
      · simp [hcalls]
      · rw [hhead2, hhead]
    · refine ⟨(bindSubscriber (checkRecreate state inputs).1 inputs rcl).2.2, ?_, hhead⟩
      simp [hcalls]
  · rcases hcase with ⟨_, hn, _⟩ | ⟨_, hok, p, hp, rfl⟩ | ⟨_, hok, rfl⟩
    · rw [h] at hn
      cases hn
    · have := (takeMessage_state _ _ _ _ hp).1
      simp only [this]
      rw [hsub]
      simp [hok]
    · simp only [hsub]
      simp [hok]
  · rcases hcase with ⟨_, hn, _⟩ | ⟨_, hok, p, hp, rfl⟩ | ⟨_, hok, rfl⟩
    · rw [h] at hn
      cases hn
    · rw [← hokiff, hok]
    · rw [← hokiff, hok]

/-- C18, at a bound node whose topic changed and whose two finalize calls fail with
codes 1 and 2: the cycle still finalizes both, rebinds and polls. -/
theorem teardown_best_effort_witness :
    (∃ r, compute boundState changedInputs
          { sampleRcl 401 noPointsMsg with subscription_fini := 1, node_fini := 2 }
          freshOutputs = some r ∧
      compute boundState changedInputs (sampleRcl 401 noPointsMsg) freshOutputs = some r ∧
      (∃ rest, r.calls = Call.rcl_subscription_fini :: Call.rcl_node_fini :: rest ∧
        rest.head? =
          if boundState.context_initialized = true then
            some (Call.rcl_node_init "robot_cmd_subscriber"
              (if changedInputs.nodeNamespace = "" then ""
                else "/" ++ changedInputs.nodeNamespace))
          else some Call.rcl_init_options_init) ∧
      (checkRecreate boundState changedInputs).1.sub_created = false ∧
      (r.state.sub_created = true ↔ r.ret = true) ∧
      (r.ret = true ↔
        (boundState.context_initialized = true ∨
          ((sampleRcl 401 noPointsMsg).init_options_init = RCL_RET_OK ∧
            (sampleRcl 401 noPointsMsg).init = RCL_RET_OK)) ∧
        (sampleRcl 401 noPointsMsg).node_init = RCL_RET_OK ∧
        (sampleRcl 401 noPointsMsg).subscription_init = RCL_RET_OK)) ∧
    (compute boundState changedInputs
        { sampleRcl 401 noPointsMsg with subscription_fini := 1, node_fini := 2 }
        freshOutputs).map (fun r => (r.ret, r.state.sub_created)) = some (true, true) :=
  ⟨teardown_best_effort boundState changedInputs (sampleRcl 401 noPointsMsg) freshOutputs 1 2
    (by decide), rfl⟩

/-- C19: for a queue size `q` with `0 ≤ q` (and `q` a C `int`, so below `2 ^ 31`), the
depth of the QoS is `q` for every profile name, and the QoS that compute passes to
`rcl_subscription_init` has depth `q`. -/
theorem depth_passthrough {D : Type} [Float64 D] (state : NodeState) (inputs : Inputs)
    (rcl : Rcl D) (outputs : Outputs D)
    (h0 : 0 ≤ inputs.queueSize) (h1 : inputs.queueSize < 2 ^ 31) :
    (∀ qos_profile : String,
      ((sub_options_qos qos_profile inputs.queueSize).depth : Int) = inputs.queueSize) ∧
    ∃ r, compute state inputs rcl outputs = some r ∧
      ∀ topic qos, Call.rcl_subscription_init topic qos ∈ r.calls →
        (qos.depth : Int) = inputs.queueSize := by
  have hmod : inputs.queueSize % 2 ^ 64 = inputs.queueSize :=
    Int.emod_eq_of_lt h0 (by omega)
  have hdepth : ∀ qos_profile : String,
      ((sub_options_qos qos_profile inputs.queueSize).depth : Int) = inputs.queueSize := by
    intro qos_profile
    have : (sub_options_qos qos_profile inputs.queueSize).depth =
        (inputs.queueSize % 2 ^ 64).toNat := by
      unfold sub_options_qos
      simp only []
      split_ifs <;> rfl
    rw [this, hmod]
    exact Int.toNat_of_nonneg h0
  refine ⟨hdepth, ?_⟩
  obtain ⟨r, hr, hcalls⟩ := compute_calls state inputs rcl outputs
  refine ⟨r, hr, ?_⟩
  intro topic qos hmem
  rcases hcalls _ hmem with h | h | h | h | h | h | h
  · cases h
  · cases h
  · cases h
  · cases h
  · cases h
  · cases h
    exact hdepth _
  · cases h

/-- C19, at queue size 10 and a first cycle: the subscription is created with depth 10. -/
theorem depth_passthrough_witness :
    ((∀ qos_profile : String,
      ((sub_options_qos qos_profile sampleInputs.queueSize).depth : Int) =
        sampleInputs.queueSize) ∧
    ∃ r, compute unboundState sampleInputs (sampleRcl 401 noPointsMsg) freshOutputs = some r ∧
      ∀ topic qos, Call.rcl_subscription_init topic qos ∈ r.calls →
        (qos.depth : Int) = sampleInputs.queueSize) ∧
    (compute unboundState sampleInputs (sampleRcl 401 noPointsMsg) freshOutputs).map
        (fun r => r.calls) =
      some [Call.rcl_init_options_init, Call.rcl_init,
        Call.rcl_node_init "robot_cmd_subscriber" "",
        Call.rcl_subscription_init "/robot_cmd"
          { reliability := Reliability.RELIABLE, durability := Durability.VOLATILE, depth := 10 },
        Call.rcl_take] :=
  ⟨depth_passthrough unboundState sampleInputs (sampleRcl 401 noPointsMsg) freshOutputs
    (by decide) (by decide), rfl⟩

/-- The check is false exactly when the node is not bound or the five fields of the
inputs are the stored ones. -/
theorem need_recreate_eq_false_iff (state : NodeState) (inputs : Inputs) :
    need_recreate state inputs = false ↔
      state.sub_created = false ∨
        (inputs.topicName = state.last_topic_name ∧
         inputs.nodeNamespace = state.last_namespace ∧
         inputs.qosProfile = state.last_qos_profile ∧
         inputs.queueSize = state.last_queue_size ∧
         inputs.context = state.last_context) := by
  unfold need_recreate
  cases state.sub_created <;> simp

/-- C20: when compute returns true the subscription is bound and the stored
configuration is, field by field, the configuration of the cycle; if the configuration
had changed, the cycle made the two finalize calls, then the creation calls with the
new configuration, then `rcl_take`; and a compute that follows with the same inputs
makes one call, `rcl_take`: no teardown and no bind. -/
theorem compute_true_applies_config {D : Type} [Float64 D] (state : NodeState)
    (inputs : Inputs) (rcl : Rcl D) (outputs : Outputs D) :
    ∃ r, compute state inputs rcl outputs = some r ∧
      (r.ret = true →
        r.state.sub_created = true ∧
        r.state.last_topic_name = inputs.topicName ∧
        r.state.last_namespace = inputs.nodeNamespace ∧
        r.state.last_qos_profile = inputs.qosProfile ∧
        r.state.last_queue_size = inputs.queueSize ∧
        r.state.last_context = inputs.context ∧
        (need_recreate state inputs = true →
          ∃ bindCalls,
            r.calls = [Call.rcl_subscription_fini, Call.rcl_node_fini] ++ bindCalls ++
              [Call.rcl_take] ∧
            Call.rcl_node_init "robot_cmd_subscriber"
              (if inputs.nodeNamespace = "" then "" else "/" ++ inputs.nodeNamespace) ∈
              bindCalls ∧
            Call.rcl_subscription_init inputs.topicName
              (sub_options_qos inputs.qosProfile inputs.queueSize) ∈ bindCalls ∧
            Call.rcl_subscription_fini ∉ bindCalls ∧ Call.rcl_node_fini ∉ bindCalls ∧
            Call.rcl_take ∉ bindCalls) ∧
        ∀ (rcl2 : Rcl D) (outputs2 : Outputs D),
          ∃ r2, compute r.state inputs rcl2 outputs2 = some r2 ∧
            r2.ret = true ∧ r2.calls = [Call.rcl_take]) := by
  have follow : ∀ st : NodeState, st.sub_created = true →
      st.last_topic_name = inputs.topicName → st.last_namespace = inputs.nodeNamespace →
      st.last_qos_profile = inputs.qosProfile → st.last_queue_size = inputs.queueSize →
      st.last_context = inputs.context →
      ∀ (rcl2 : Rcl D) (outputs2 : Outputs D),
        ∃ r2, compute st inputs rcl2 outputs2 = some r2 ∧
          r2.ret = true ∧ r2.calls = [Call.rcl_take] := by
    intro st hs e1 e2 e3 e4 e5 rcl2 outputs2
    have hn : need_recreate st inputs = false :=
      (need_recreate_eq_false_iff st inputs).mpr
        (Or.inr ⟨e1.symm, e2.symm, e3.symm, e4.symm, e5.symm⟩)
    rw [compute_bound st inputs rcl2 outputs2 hs hn]
    obtain ⟨p, hp⟩ := takeMessage_isSome st rcl2 outputs2
    rw [hp]
    exact ⟨_, rfl, rfl, rfl⟩
  obtain ⟨r, hr, hcase⟩ := compute_cases state inputs rcl outputs
  refine ⟨r, hr, ?_⟩
  intro hret
  rcases hcase with ⟨hs, hn, p, hp, rfl⟩ | ⟨_, hok, p, hp, rfl⟩ | ⟨_, _, rfl⟩
  · obtain ⟨t0, _, t1, t2, t3, t4, t5⟩ := takeMessage_state _ _ _ _ hp
    rcases (need_recreate_eq_false_iff state inputs).mp hn with hf | ⟨e1, e2, e3, e4, e5⟩
    · rw [hs] at hf
      cases hf
    · have a0 : p.1.sub_created = true := t0.trans hs
      have a1 : p.1.last_topic_name = inputs.topicName := t1.trans e1.symm
      have a2 : p.1.last_namespace = inputs.nodeNamespace := t2.trans e2.symm
      have a3 : p.1.last_qos_profile = inputs.qosProfile := t3.trans e3.symm
      have a4 : p.1.last_queue_size = inputs.queueSize := t4.trans e4.symm
      have a5 : p.1.last_context = inputs.context := t5.trans e5.symm
      refine ⟨a0, a1, a2, a3, a4, a5, ?_, follow p.1 a0 a1 a2 a3 a4 a5⟩
      intro hy
      rw [hn] at hy
      cases hy
  · obtain ⟨t0, _, t1, t2, t3, t4, t5⟩ := takeMessage_state _ _ _ _ hp
    obtain ⟨b1, b2, b3, b4, b5, b0, _⟩ :=
      bindSubscriber_state (checkRecreate state inputs).1 inputs rcl
    have a0 : p.1.sub_created = true := t0.trans (b0.mpr (Or.inl hok))
    have a1 : p.1.last_topic_name = inputs.topicName := t1.trans b1
    have a2 : p.1.last_namespace = inputs.nodeNamespace := t2.trans b2
    have a3 : p.1.last_qos_profile = inputs.qosProfile := t3.trans b3
    have a4 : p.1.last_queue_size = inputs.queueSize := t4.trans b4
    have a5 : p.1.last_context = inputs.context := t5.trans b5
    refine ⟨a0, a1, a2, a3, a4, a5, ?_, follow p.1 a0 a1 a2 a3 a4 a5⟩
    intro hy
    obtain ⟨c1, c2⟩ := bindSubscriber_ok_calls (checkRecreate state inputs).1 inputs rcl hok
    have hb := bindSubscriber_calls (checkRecreate state inputs).1 inputs rcl
    refine ⟨(bindSubscriber (checkRecreate state inputs).1 inputs rcl).2.2, ?_, c1, c2,
      ?_, ?_, ?_⟩
    · simp [checkRecreate_calls, hy]
    · intro hmem
      rcases hb _ hmem with h | h | h | h <;> cases h
    · intro hmem
      rcases hb _ hmem with h | h | h | h <;> cases h
    · intro hmem
      rcases hb _ hmem with h | h | h | h <;> cases h
  · cases hret

/-- C20, at a bound node whose topic changed: the cycle ends bound with the new
topic stored, after teardown, bind and poll. -/
theorem compute_true_applies_config_witness :
    (∃ r, compute boundState changedInputs (sampleRcl 401 noPointsMsg) freshOutputs = some r ∧
      (r.ret = true →
        r.state.sub_created = true ∧
        r.state.last_topic_name = changedInputs.topicName ∧
        r.state.last_namespace = changedInputs.nodeNamespace ∧
        r.state.last_qos_profile = changedInputs.qosProfile ∧
        r.state.last_queue_size = changedInputs.queueSize ∧
        r.state.last_context = changedInputs.context ∧
        (need_recreate boundState changedInputs = true →
          ∃ bindCalls,
            r.calls = [Call.rcl_subscription_fini, Call.rcl_node_fini] ++ bindCalls ++
              [Call.rcl_take] ∧
            Call.rcl_node_init "robot_cmd_subscriber"
              (if changedInputs.nodeNamespace = "" then ""
                else "/" ++ changedInputs.nodeNamespace) ∈ bindCalls ∧
            Call.rcl_subscription_init changedInputs.topicName
              (sub_options_qos changedInputs.qosProfile changedInputs.queueSize) ∈ bindCalls ∧
            Call.rcl_subscription_fini ∉ bindCalls ∧ Call.rcl_node_fini ∉ bindCalls ∧
            Call.rcl_take ∉ bindCalls) ∧
        ∀ (rcl2 : Rcl ℚ) (outputs2 : Outputs ℚ),
          ∃ r2, compute r.state changedInputs rcl2 outputs2 = some r2 ∧
            r2.ret = true ∧ r2.calls = [Call.rcl_take])) ∧
    (compute boundState changedInputs (sampleRcl 401 noPointsMsg) freshOutputs).map
        (fun r => (r.ret, r.state.sub_created, r.state.last_topic_name)) =
      some (true, true, "/other_cmd") :=
  ⟨compute_true_applies_config boundState changedInputs (sampleRcl 401 noPointsMsg)
    freshOutputs, rfl⟩


/-! ## Claims on the arguments of the bind, the decoder and the return value -/

/-- The bind reaches the creation of the subscription when the context steps and the
node creation succeed, and then calls it with the topic and the QoS of the inputs. -/
theorem bindSubscriber_reaches_subscription {D : Type} (state : NodeState) (inputs : Inputs)
    (rcl : Rcl D)
    (hctx : state.context_initialized = true ∨
      (rcl.init_options_init = RCL_RET_OK ∧ rcl.init = RCL_RET_OK))
    (hnode : rcl.node_init = RCL_RET_OK) :
    Call.rcl_subscription_init inputs.topicName
        (sub_options_qos inputs.qosProfile inputs.queueSize) ∈
      (bindSubscriber state inputs rcl).2.2 := by
  have e : (RCL_RET_OK = rcl.subscription_init) = (rcl.subscription_init = RCL_RET_OK) :=
    propext eq_comm
  unfold bindSubscriber initContext createSubscriber
  simp only [e, ne_eq]
  by_cases hc : state.context_initialized = true <;>
    by_cases h1 : rcl.init_options_init = RCL_RET_OK <;>
    by_cases h2 : rcl.init = RCL_RET_OK <;>
    by_cases h4 : rcl.subscription_init = RCL_RET_OK <;>
    simp [hc, h1, h2, hnode, h4] <;> simp_all

/-- The calls of a cycle that attempts a bind contain the calls of the bind. -/
theorem compute_contains_bind_calls {D : Type} [Float64 D] (state : NodeState)
    (inputs : Inputs) (rcl : Rcl D) (outputs : Outputs D)
    (hbind : state.sub_created = false ∨ need_recreate state inputs = true) :
    ∃ r, compute state inputs rcl outputs = some r ∧
      ∀ c ∈ (bindSubscriber (checkRecreate state inputs).1 inputs rcl).2.2, c ∈ r.calls := by
  obtain ⟨r, hr, hcase⟩ := compute_cases state inputs rcl outputs
  refine ⟨r, hr, ?_⟩
  intro c hc
  rcases hcase with ⟨hs, hn, _⟩ | ⟨_, _, p, _, rfl⟩ | ⟨_, _, rfl⟩
  · rcases hbind with h | h
    · rw [hs] at h
      cases h
    · rw [hn] at h
      cases h
  · simp [hc]
  · simp [hc]

/-- C21: the node that compute creates has the name `robot_cmd_subscriber` and, as
namespace argument, the empty string when the namespace input is empty and `/` followed
by the namespace input otherwise; the subscription is created on the topic input.  A
cycle that binds successfully makes both calls. -/
theorem bind_arguments {D : Type} [Float64 D] (state : NodeState) (inputs : Inputs)
    (rcl : Rcl D) (outputs : Outputs D) :
    ∃ r, compute state inputs rcl outputs = some r ∧
      (∀ node_name full_namespace, Call.rcl_node_init node_name full_namespace ∈ r.calls →
        node_name = "robot_cmd_subscriber" ∧
        full_namespace =
          if inputs.nodeNamespace = "" then "" else "/" ++ inputs.nodeNamespace) ∧
      (∀ topic qos, Call.rcl_subscription_init topic qos ∈ r.calls →
        topic = inputs.topicName) ∧
      ((state.sub_created = false ∨ need_recreate state inputs = true) ∧ r.ret = true →
        Call.rcl_node_init "robot_cmd_subscriber"
          (if inputs.nodeNamespace = "" then "" else "/" ++ inputs.nodeNamespace) ∈ r.calls ∧
        Call.rcl_subscription_init inputs.topicName
          (sub_options_qos inputs.qosProfile inputs.queueSize) ∈ r.calls) := by
  obtain ⟨r, hr, hcalls⟩ := compute_calls state inputs rcl outputs
  refine ⟨r, hr, ?_, ?_, ?_⟩
  · intro node_name full_namespace hmem
    rcases hcalls _ hmem with h | h | h | h | h | h | h <;> cases h
    exact ⟨rfl, rfl⟩
  · intro topic qos hmem
    rcases hcalls _ hmem with h | h | h | h | h | h | h <;> cases h
    rfl
  · rintro ⟨hbind, hret⟩
    obtain ⟨r2, hr2, hsub⟩ := compute_contains_bind_calls state inputs rcl outputs hbind
    rw [hr] at hr2
    cases hr2
    obtain ⟨r3, hr3, hcase⟩ := compute_cases state inputs rcl outputs
    rw [hr] at hr3
    cases hr3
    have hok : (bindSubscriber (checkRecreate state inputs).1 inputs rcl).1 = true := by
      rcases hcase with ⟨hs, hn, _⟩ | ⟨_, hok, _⟩ | ⟨_, _, rfl⟩
      · rcases hbind with h | h
        · rw [hs] at h
          cases h
        · rw [hn] at h
          cases h
      · exact hok
      · cases hret
    obtain ⟨c1, c2⟩ := bindSubscriber_ok_calls (checkRecreate state inputs).1 inputs rcl hok
    exact ⟨hsub _ c1, hsub _ c2⟩

/-- C21, at a first cycle with namespace `robot1`: the node is created in `/robot1`
and the subscription on `/robot_cmd`. -/
theorem bind_arguments_witness :
    (∃ r, compute unboundState negativeQueueInputs (sampleRcl 401 noPointsMsg) freshOutputs =
        some r ∧
      (∀ node_name full_namespace, Call.rcl_node_init node_name full_namespace ∈ r.calls →
        node_name = "robot_cmd_subscriber" ∧
        full_namespace =
          if negativeQueueInputs.nodeNamespace = "" then ""
          else "/" ++ negativeQueueInputs.nodeNamespace) ∧
      (∀ topic qos, Call.rcl_subscription_init topic qos ∈ r.calls →
        topic = negativeQueueInputs.topicName) ∧
      ((unboundState.sub_created = false ∨
          need_recreate unboundState negativeQueueInputs = true) ∧ r.ret = true →
        Call.rcl_node_init "robot_cmd_subscriber"
          (if negativeQueueInputs.nodeNamespace = "" then ""
            else "/" ++ negativeQueueInputs.nodeNamespace) ∈ r.calls ∧
        Call.rcl_subscription_init negativeQueueInputs.topicName
          (sub_options_qos negativeQueueInputs.qosProfile negativeQueueInputs.queueSize) ∈
          r.calls)) ∧
    (compute unboundState negativeQueueInputs (sampleRcl 401 noPointsMsg) freshOutputs).map
        (fun r => r.calls) =
      some [Call.rcl_init_options_init, Call.rcl_init,
        Call.rcl_node_init "robot_cmd_subscriber" "/robot1",
        Call.rcl_subscription_init "/robot_cmd"
          { reliability := Reliability.BEST_EFFORT, durability := Durability.VOLATILE
            depth := 18446744073709551615 },
        Call.rcl_take] :=
  ⟨bind_arguments unboundState negativeQueueInputs (sampleRcl 401 noPointsMsg) freshOutputs,
    rfl⟩

/-- C24, what the code does: a message with one trajectory point whose only joint
name is `a`, NUL, `b` is decoded to the joint-name output `a`, which is not the list of
names of the message. -/
theorem decode_names_not_copied_whole :
    num_joints (sampleMsg ["a\x00b"] [⟨[], [], []⟩]).arm_cmd.joint_names
        (⟨[], [], []⟩ : TrajectoryPoint ℚ) = 1 ∧
    (decode (sampleMsg ["a\x00b"] [⟨[], [], []⟩]) staleOutputs).map
        (fun o => o.armJointNames) = some ["a"] ∧
    (decode (sampleMsg ["a\x00b"] [⟨[], [], []⟩]) staleOutputs).map
        (fun o => o.armJointNames) ≠
      some (sampleMsg ["a\x00b"] [⟨[], [], []⟩]).arm_cmd.joint_names := by
  refine ⟨by decide, by decide, by decide⟩

/-- C24, amended: for a message with a last trajectory point and a non-empty list of
joint names, the joint count is the number of joint names, the joint-name output is the
list of joint names of the message, each read as a C string (its characters before the
first NUL), so it is the list of names itself when no name holds a NUL; and the loop
that fills the remaining slots with synthesized names runs over an empty range: it
returns its array unchanged, whatever its body. -/
theorem decode_names_copied {D : Type} [Float64 D] (ros_msg : RobotCmd D)
    (outputs : Outputs D) (latest_point : TrajectoryPoint D)
    (hlast : ros_msg.arm_cmd.points.getLast? = some latest_point)
    (hnames : ros_msg.arm_cmd.joint_names ≠ []) :
    num_joints ros_msg.arm_cmd.joint_names latest_point =
      ros_msg.arm_cmd.joint_names.length ∧
    (∃ o, decode ros_msg outputs = some o ∧
      o.armJointNames = ros_msg.arm_cmd.joint_names.map c_str ∧
      ((∀ name ∈ ros_msg.arm_cmd.joint_names, ∀ c ∈ name.data, c ≠ Char.ofNat 0) →
        o.armJointNames = ros_msg.arm_cmd.joint_names)) ∧
    (∀ (body : Nat → List String → Option (List String)) (armJointNames : List String),
      forLoop
        (min ros_msg.arm_cmd.joint_names.length
          (num_joints ros_msg.arm_cmd.joint_names latest_point))
        (num_joints ros_msg.arm_cmd.joint_names latest_point) body armJointNames =
      some armJointNames) := by
  have hpos : 0 < ros_msg.arm_cmd.joint_names.length := List.length_pos.mpr hnames
  have hn : num_joints ros_msg.arm_cmd.joint_names latest_point =
      ros_msg.arm_cmd.joint_names.length := by
    unfold num_joints
    rw [if_pos hpos]
  have hmap : (List.range ros_msg.arm_cmd.joint_names.length).map
      (fun i => (ros_msg.arm_cmd.joint_names.map c_str).getD i (default_name i)) =
      ros_msg.arm_cmd.joint_names.map c_str := by
    apply List.ext_getElem?
    intro j
    by_cases hj : j < ros_msg.arm_cmd.joint_names.length
    · simp [hj, List.getElem?_eq_getElem]
    · have a1 : (ros_msg.arm_cmd.joint_names.map c_str)[j]? = none :=
        List.getElem?_eq_none (by simp; omega)
      have a2 : (List.range ros_msg.arm_cmd.joint_names.length)[j]? = none :=
        List.getElem?_eq_none (by simp; omega)
      rw [List.getElem?_map, a1, a2]
      rfl
  refine ⟨hn, ?_, ?_⟩
  · unfold decode
    rw [processArmCmd_last _ _ latest_point hlast, if_pos (by omega), hn]
    refine ⟨_, rfl, hmap, ?_⟩
    intro hno
    show (List.range ros_msg.arm_cmd.joint_names.length).map
      (fun i => (ros_msg.arm_cmd.joint_names.map c_str).getD i (default_name i)) =
      ros_msg.arm_cmd.joint_names
    rw [hmap]
    have : ∀ name ∈ ros_msg.arm_cmd.joint_names, c_str name = id name :=
      fun name hmem => c_str_of_no_nul name (hno name hmem)
    rw [List.map_congr_left this, List.map_id]
  · intro body armJointNames
    rw [hn, Nat.min_self, forLoop_unfold, if_neg (Nat.lt_irrefl _)]

/-- C24, amended, at the padding scenario, whose message names the joints `a` and
`b`. -/
theorem decode_names_copied_witness :
    num_joints paddingMsg.arm_cmd.joint_names ⟨[1], [], []⟩ = 2 ∧
    (∃ o, decode paddingMsg staleOutputs = some o ∧ o.armJointNames = ["a", "b"]) := by
  obtain ⟨h1, ⟨o, ho, _, hwhole⟩, _⟩ :=
    decode_names_copied paddingMsg staleOutputs ⟨[1], [], []⟩ (by decide) (by decide)
  exact ⟨h1, o, ho, hwhole (by decide)⟩

/-- C25: a read or a write of the embedding fails exactly at an index that is not
below the length of the array, and neither the decoding of a message nor a cycle of
compute ever fails: every read of the point sequence, the joint names, the positions,
the velocities and the effort and every write to the four arm outputs is at an index
below the length the array has at that moment. -/
theorem decode_index_safe {D : Type} [Float64 D] (ros_msg : RobotCmd D)
    (outputs : Outputs D) :
    (∀ (points : List (TrajectoryPoint D)) (i : Nat),
      readAt points i = none ↔ points.length ≤ i) ∧
    (∀ (data : List String) (i : Nat), readAt data i = none ↔ data.length ≤ i) ∧
    (∀ (data : List D) (i : Nat), readAt data i = none ↔ data.length ≤ i) ∧
    (∀ (arr : List String) (i : Nat) (v : String),
      writeAt arr i v = none ↔ arr.length ≤ i) ∧
    (∀ (arr : List D) (i : Nat) (v : D), writeAt arr i v = none ↔ arr.length ≤ i) ∧
    processArmCmd ros_msg outputs ≠ none ∧
    decode ros_msg outputs ≠ none ∧
    (∀ (state : NodeState) (inputs : Inputs) (rcl : Rcl D),
      compute state inputs rcl outputs ≠ none) := by
  have hread : ∀ {α : Type} (data : List α) (i : Nat),
      readAt data i = none ↔ data.length ≤ i := by
    intro α data i
    unfold readAt
    exact List.getElem?_eq_none_iff
  have hwrite : ∀ {α : Type} (arr : List α) (i : Nat) (v : α),
      writeAt arr i v = none ↔ arr.length ≤ i := by
    intro α arr i v
    unfold writeAt
    by_cases h : i < arr.length
    · simp [h]
    · simp [h]
      omega
  refine ⟨hread, hread, hread, hwrite, hwrite, ?_, ?_, ?_⟩
  · cases h : ros_msg.arm_cmd.points.getLast? with
    | none =>
      rw [processArmCmd_nil _ _ (List.getLast?_eq_none_iff.mp h)]
      simp
    | some latest_point =>
      rw [processArmCmd_last _ _ latest_point h]
      split <;> simp
  · obtain ⟨o, ho⟩ := decode_isSome ros_msg outputs
    rw [ho]
    simp
  · intro state inputs rcl
    obtain ⟨r, hr, _⟩ := compute_cases state inputs rcl outputs
    rw [hr]
    simp

/-- C26: compute returns false exactly when the cycle attempts a bind (the node is not
bound, or its configuration changed) and a creation step of the bind fails; a cycle
that reaches `rcl_take` returns true whatever `rcl_take` returns, and so does every
cycle of a bound node whose configuration did not change. -/
theorem compute_false_iff {D : Type} [Float64 D] (state : NodeState) (inputs : Inputs)
    (rcl : Rcl D) (outputs : Outputs D) :
    ∃ r, compute state inputs rcl outputs = some r ∧
      (r.ret = false ↔
        (state.sub_created = false ∨ need_recreate state inputs = true) ∧
        ((state.context_initialized = false ∧
            (rcl.init_options_init ≠ RCL_RET_OK ∨ rcl.init ≠ RCL_RET_OK)) ∨
          rcl.node_init ≠ RCL_RET_OK ∨ rcl.subscription_init ≠ RCL_RET_OK)) ∧
      (Call.rcl_take ∈ r.calls → r.ret = true) ∧
      (state.sub_created = true ∧ need_recreate state inputs = false → r.ret = true) := by
  have hokiff := bindSubscriber_ok_iff (checkRecreate state inputs).1 inputs rcl
  rw [checkRecreate_context] at hokiff
  have hfail : (bindSubscriber (checkRecreate state inputs).1 inputs rcl).1 = false ↔
      ((state.context_initialized = false ∧
          (rcl.init_options_init ≠ RCL_RET_OK ∨ rcl.init ≠ RCL_RET_OK)) ∨
        rcl.node_init ≠ RCL_RET_OK ∨ rcl.subscription_init ≠ RCL_RET_OK) := by
    rw [← Bool.not_eq_true, hokiff]
    cases state.context_initialized <;> simp <;> tauto
  obtain ⟨r, hr, hiff, _, _⟩ := compute_take state inputs rcl outputs
  obtain ⟨r2, hr2, hcase⟩ := compute_cases state inputs rcl outputs
  rw [hr] at hr2
  cases hr2
  refine ⟨r, hr, ?_, hiff.mp, ?_⟩
  · rcases hcase with ⟨hs, hn, p, _, rfl⟩ | ⟨hb, hok, p, _, rfl⟩ | ⟨hb, hok, rfl⟩
    · constructor
      · intro h
        cases h
      · rintro ⟨h | h, _⟩
        · rw [hs] at h
          cases h
        · rw [hn] at h
          cases h
    · constructor
      · intro h
        cases h
      · rintro ⟨_, h⟩
        rw [hfail.mpr h] at hok
        cases hok
    · exact ⟨fun _ => ⟨hb, hfail.mp hok⟩, fun _ => rfl⟩
  · rintro ⟨hs, hn⟩
    rcases hcase with ⟨_, _, p, _, rfl⟩ | ⟨hb, _⟩ | ⟨hb, _⟩
    · rfl
    · rcases hb with h | h
      · rw [hs] at h
        cases h
      · rw [hn] at h
        cases h
    · rcases hb with h | h
      · rw [hs] at h
        cases h
      · rw [hn] at h
        cases h

/-- C26, at a bound node whose take reports the error code 1, and at a first cycle
whose node creation fails. -/
theorem compute_false_iff_witness :
    (∃ r, compute boundState sampleInputs (sampleRcl 1 noPointsMsg) freshOutputs = some r ∧
      (r.ret = false ↔
        (boundState.sub_created = false ∨ need_recreate boundState sampleInputs = true) ∧
        ((boundState.context_initialized = false ∧
            ((sampleRcl 1 noPointsMsg).init_options_init ≠ RCL_RET_OK ∨
              (sampleRcl 1 noPointsMsg).init ≠ RCL_RET_OK)) ∨
          (sampleRcl 1 noPointsMsg).node_init ≠ RCL_RET_OK ∨
          (sampleRcl 1 noPointsMsg).subscription_init ≠ RCL_RET_OK)) ∧
      (Call.rcl_take ∈ r.calls → r.ret = true) ∧
      (boundState.sub_created = true ∧ need_recreate boundState sampleInputs = false →
        r.ret = true)) ∧
    (compute boundState sampleInputs (sampleRcl 1 noPointsMsg) freshOutputs).map
        (fun r => (r.ret, r.calls)) = some (true, [Call.rcl_take]) ∧
    (compute unboundState sampleInputs nodeInitFails freshOutputs).map
        (fun r => r.ret) = some false :=
  ⟨compute_false_iff boundState sampleInputs (sampleRcl 1 noPointsMsg) freshOutputs, rfl, rfl⟩

/-- C28: for a negative queue size `q` (a C `int`, so `-2 ^ 31 ≤ q`), the depth of the
QoS is `2 ^ 64 + q` for every profile name, which is neither `q` nor 0; a cycle that
attempts a bind still starts with a creation call, reaches the creation of the
subscription when the steps before it succeed, and passes that depth to it. -/
theorem negative_queue_size_depth {D : Type} [Float64 D] (state : NodeState)
    (inputs : Inputs) (rcl : Rcl D) (outputs : Outputs D)
    (hneg : inputs.queueSize < 0) (hint : -2 ^ 31 ≤ inputs.queueSize)
    (hbind : state.sub_created = false ∨ need_recreate state inputs = true) :
    (∀ qos_profile : String,
      ((sub_options_qos qos_profile inputs.queueSize).depth : Int) =
          2 ^ 64 + inputs.queueSize ∧
      ((sub_options_qos qos_profile inputs.queueSize).depth : Int) ≠ inputs.queueSize ∧
      (sub_options_qos qos_profile inputs.queueSize).depth ≠ 0) ∧
    ∃ r, compute state inputs rcl outputs = some r ∧
      (∃ c rest, r.calls = (checkRecreate state inputs).2 ++ c :: rest ∧
        (c = Call.rcl_init_options_init ∨
          c = Call.rcl_node_init "robot_cmd_subscriber"
            (if inputs.nodeNamespace = "" then "" else "/" ++ inputs.nodeNamespace))) ∧
      ((state.context_initialized = true ∨
          (rcl.init_options_init = RCL_RET_OK ∧ rcl.init = RCL_RET_OK)) ∧
        rcl.node_init = RCL_RET_OK →
        Call.rcl_subscription_init inputs.topicName
          (sub_options_qos inputs.qosProfile inputs.queueSize) ∈ r.calls) ∧
      (∀ topic qos, Call.rcl_subscription_init topic qos ∈ r.calls →
        (qos.depth : Int) = 2 ^ 64 + inputs.queueSize) := by
  have hmod : inputs.queueSize % 2 ^ 64 = 2 ^ 64 + inputs.queueSize := by
    rw [← Int.add_emod_self_left]
    exact Int.emod_eq_of_lt (by omega) (by omega)
  have hdepth : ∀ qos_profile : String,
      ((sub_options_qos qos_profile inputs.queueSize).depth : Int) =
        2 ^ 64 + inputs.queueSize := by
    intro qos_profile
    have : (sub_options_qos qos_profile inputs.queueSize).depth =
        (inputs.queueSize % 2 ^ 64).toNat := by
      unfold sub_options_qos
      simp only []
      split_ifs <;> rfl
    rw [this, hmod]
    exact Int.toNat_of_nonneg (by omega)
  refine ⟨?_, ?_⟩
  · intro qos_profile
    have h := hdepth qos_profile
    refine ⟨h, ?_, ?_⟩
    · rw [h]
      omega
    · intro h0
      rw [h0] at h
      simp at h
      omega
  · have hhead := bindSubscriber_head (checkRecreate state inputs).1 inputs rcl
    rw [checkRecreate_context] at hhead
    obtain ⟨r, hr, hsub⟩ := compute_contains_bind_calls state inputs rcl outputs hbind
    obtain ⟨r2, hr2, hcalls⟩ := compute_calls state inputs rcl outputs
    rw [hr] at hr2
    cases hr2
    obtain ⟨r3, hr3, hcase⟩ := compute_cases state inputs rcl outputs
    rw [hr] at hr3
    cases hr3
    refine ⟨r, hr, ?_, ?_, ?_⟩
    · cases hl : (bindSubscriber (checkRecreate state inputs).1 inputs rcl).2.2 with
      | nil =>
        rw [hl] at hhead
        split at hhead <;> cases hhead
      | cons c cs =>
        rw [hl] at hhead
        have hc : c = Call.rcl_init_options_init ∨
            c = Call.rcl_node_init "robot_cmd_subscriber"
              (if inputs.nodeNamespace = "" then "" else "/" ++ inputs.nodeNamespace) := by
          split at hhead
          · exact Or.inr (Option.some.inj hhead)
          · exact Or.inl (Option.some.inj hhead)
        rcases hcase with ⟨hs, hn, _⟩ | ⟨_, _, p, _, rfl⟩ | ⟨_, _, rfl⟩
        · rcases hbind with h | h
          · rw [hs] at h
            cases h
          · rw [hn] at h
            cases h
        · exact ⟨c, cs ++ [Call.rcl_take], by simp [hl], hc⟩
        · exact ⟨c, cs, by simp [hl], hc⟩
    · rintro ⟨hctx, hnode⟩
      have hctx2 : (checkRecreate state inputs).1.context_initialized = true ∨
          (rcl.init_options_init = RCL_RET_OK ∧ rcl.init = RCL_RET_OK) := by
        rw [checkRecreate_context]
        exact hctx
      exact hsub _ (bindSubscriber_reaches_subscription _ inputs rcl hctx2 hnode)
    · intro topic qos hmem
      rcases hcalls _ hmem with h | h | h | h | h | h | h <;> cases h
      exact hdepth _

/-- C28, at queue size -1 and a first cycle: the subscription is created with depth
`2 ^ 64 - 1`. -/
theorem negative_queue_size_depth_witness :
    (sub_options_qos "default" (-1)).depth = 18446744073709551615 ∧
    ∃ r, compute unboundState negativeQueueInputs (sampleRcl 401 noPointsMsg) freshOutputs =
        some r ∧
      Call.rcl_subscription_init "/robot_cmd"
        { reliability := Reliability.BEST_EFFORT, durability := Durability.VOLATILE
          depth := 18446744073709551615 } ∈ r.calls := by
  obtain ⟨_, r, hr, _, hreach, _⟩ :=
    negative_queue_size_depth unboundState negativeQueueInputs (sampleRcl 401 noPointsMsg)
      freshOutputs (by decide) (by decide) (Or.inl rfl)
  exact ⟨by decide, r, hr, hreach ⟨Or.inr ⟨rfl, rfl⟩, rfl⟩⟩

/-! ## Invariants of the reachable states -/

/-- After `releaseInstance` the node is not bound and its context is not initialized. -/
theorem releaseInstance_flags (state : NodeState) :
    (releaseInstance state).1.sub_created = false ∧
    (releaseInstance state).1.context_initialized = false := by
  unfold releaseInstance teardown
  cases hs : state.sub_created <;> cases hc : state.context_initialized <;> simp [hs, hc]

/-- A cycle of compute keeps the property that a bound node has an initialized
context. -/
theorem compute_keeps_bound_context {D : Type} [Float64 D] (state : NodeState)
    (inputs : Inputs) (rcl : Rcl D) (outputs : Outputs D) (r : ComputeResult D)
    (hinv : state.sub_created = true → state.context_initialized = true)
    (hr : compute state inputs rcl outputs = some r) :
    r.state.sub_created = true → r.state.context_initialized = true := by
  obtain ⟨r2, hr2, hcase⟩ := compute_cases state inputs rcl outputs
  rw [hr] at hr2
  cases hr2
  obtain ⟨_, _, _, _, _, bsub, bctx⟩ :=
    bindSubscriber_state (checkRecreate state inputs).1 inputs rcl
  have hokiff := bindSubscriber_ok_iff (checkRecreate state inputs).1 inputs rcl
  intro hb
  rcases hcase with ⟨hs, _, p, hp, rfl⟩ | ⟨_, hok, p, hp, rfl⟩ | ⟨hbind, hok, rfl⟩
  · obtain ⟨_, t1, _⟩ := takeMessage_state _ _ _ _ hp
    exact t1.trans (hinv hs)
  · obtain ⟨_, t1, _⟩ := takeMessage_state _ _ _ _ hp
    exact t1.trans (bctx.mpr (hokiff.mp hok).1)
  · rcases bsub.mp hb with h | h
    · rw [hok] at h
      cases h
    · rw [checkRecreate_unbound state inputs hbind] at h
      cases h

/-- C22: in every state that the node reaches from its initial state by calls of
`compute`, `reset` and `releaseInstance`, with any inputs and any answers of rcl, a
bound subscription comes with an initialized context. -/
theorem bound_implies_context {D : Type} [Float64 D] (state : NodeState)
    (outputs : Outputs D) (h : Reachable state outputs)
    (hb : state.sub_created = true) : state.context_initialized = true := by
  induction h with
  | init outputs h1 h2 h3 h4 => cases hb
  | afterCompute h inputs rcl r hr ih =>
    exact compute_keeps_bound_context _ inputs rcl _ r ih hr hb
  | afterReset h ih =>
    rw [reset_state] at hb
    cases hb
  | afterRelease h ih =>
    rw [(releaseInstance_flags _).1] at hb
    cases hb

/-- C22, at the state after a first cycle that binds: it is bound, and its context is
initialized. -/
theorem bound_implies_context_witness :
    ∃ r, compute {} sampleInputs (sampleRcl 401 noPointsMsg) freshOutputs = some r ∧
      r.state.sub_created = true ∧ r.state.context_initialized = true := by
  obtain ⟨r, hr, _⟩ := compute_cases {} sampleInputs (sampleRcl 401 noPointsMsg) freshOutputs
  have hreach : Reachable r.state r.outputs :=
    Reachable.afterCompute (Reachable.init freshOutputs rfl rfl rfl rfl) sampleInputs
      (sampleRcl 401 noPointsMsg) r hr
  have hb : r.state.sub_created = true := by
    have hc : compute {} sampleInputs (sampleRcl 401 noPointsMsg) freshOutputs =
        some { ret := true, state := boundState
               outputs := { freshOutputs with messageReceived := false }
               calls := [Call.rcl_init_options_init, Call.rcl_init,
                 Call.rcl_node_init "robot_cmd_subscriber" "",
                 Call.rcl_subscription_init "/robot_cmd"
                   { reliability := Reliability.RELIABLE, durability := Durability.VOLATILE
                     depth := 10 },
                 Call.rcl_take] } := rfl
    rw [hc] at hr
    cases hr
    rfl
  exact ⟨r, hr, hb, bound_implies_context r.state r.outputs hreach hb⟩

/-- Four arm outputs of one common length have the same length. -/
theorem armLengthsEqual_of_length {D : Type} (outputs : Outputs D) (n : Nat)
    (h1 : outputs.armJointNames.length = n) (h2 : outputs.armPositionCmd.length = n)
    (h3 : outputs.armVelocityCmd.length = n) (h4 : outputs.armEffortCmd.length = n) :
    ArmLengthsEqual outputs := by
  unfold ArmLengthsEqual
  omega

/-- The decoding of a message keeps the arm outputs at one common length. -/
theorem decode_armLengthsEqual {D : Type} [Float64 D] (ros_msg : RobotCmd D)
    (outputs : Outputs D) (h : ArmLengthsEqual outputs) :
    ∃ o, decode ros_msg outputs = some o ∧ ArmLengthsEqual o := by
  cases hl : ros_msg.arm_cmd.points.getLast? with
  | none =>
    obtain ⟨o, ho, h1, h2, h3, h4⟩ :=
      decode_arm_lengths ros_msg outputs (Or.inl (List.getLast?_eq_none_iff.mp hl))
    exact ⟨o, ho, armLengthsEqual_of_length o _ h1 h2 h3 h4⟩
  | some p =>
    by_cases hn : 0 < num_joints ros_msg.arm_cmd.joint_names p
    · obtain ⟨o, ho, h1, h2, h3, h4⟩ :=
        decode_arm_lengths ros_msg outputs
          (Or.inr (by rw [specNumJoints_last _ _ hl]; exact hn))
      exact ⟨o, ho, armLengthsEqual_of_length o _ h1 h2 h3 h4⟩
    · obtain ⟨o, ho, h1, h2, h3, h4⟩ :=
        decode_zero_joints ros_msg outputs p hl (by omega)
      refine ⟨o, ho, ?_⟩
      unfold ArmLengthsEqual at h ⊢
      rw [h1, h2, h3, h4]
      exact h

/-- A cycle of compute keeps the arm outputs at one common length. -/
theorem compute_armLengthsEqual {D : Type} [Float64 D] (state : NodeState) (inputs : Inputs)
    (rcl : Rcl D) (outputs : Outputs D) (h : ArmLengthsEqual outputs) :
    ∃ r, compute state inputs rcl outputs = some r ∧ ArmLengthsEqual r.outputs := by
  obtain ⟨r, hr, _, htrue, hfalse⟩ := compute_take state inputs rcl outputs
  refine ⟨r, hr, ?_⟩
  cases hret : r.ret
  · rw [hfalse hret]
    exact h
  · obtain ⟨st, hst⟩ := htrue hret
    by_cases hok : rcl.take = RCL_RET_OK
    · obtain ⟨o, ho, hto⟩ := takeMessage_received st rcl outputs hok
      obtain ⟨o2, ho2, hlen⟩ := decode_armLengthsEqual rcl.ros_msg outputs h
      rw [ho] at ho2
      cases ho2
      rw [hto] at hst
      have e : r.outputs = o := (congrArg Prod.snd (Option.some.inj hst)).symm
      rw [e]
      exact hlen
    · rw [takeMessage_none st rcl outputs hok] at hst
      have e : r.outputs = { outputs with messageReceived := false } :=
        (congrArg Prod.snd (Option.some.inj hst)).symm
      rw [e]
      exact h

/-- The arm outputs are empty after `reset`, so they have one common length. -/
theorem reset_armLengthsEqual {D : Type} [Zero D] (state : NodeState) (outputs : Outputs D) :
    ArmLengthsEqual (reset state outputs).2.1 := by
  rw [reset_outputs]
  exact armLengthsEqual_of_length _ 0 rfl rfl rfl rfl

/-- C23: if the four arm outputs have pairwise equal lengths before a cycle of compute
(any inputs, any answers of rcl, any message) or before `reset`, they have pairwise
equal lengths after it; and in every state that the node reaches from empty arm outputs
the four lengths are equal. -/
theorem arm_lengths_invariant (D : Type) [Float64 D] :
    (∀ (state : NodeState) (inputs : Inputs) (rcl : Rcl D) (outputs : Outputs D),
      ArmLengthsEqual outputs →
      ∃ r, compute state inputs rcl outputs = some r ∧ ArmLengthsEqual r.outputs) ∧
    (∀ (state : NodeState) (outputs : Outputs D),
      ArmLengthsEqual outputs → ArmLengthsEqual (reset state outputs).2.1) ∧
    (∀ (state : NodeState) (outputs : Outputs D),
      Reachable state outputs → ArmLengthsEqual outputs) := by
  refine ⟨compute_armLengthsEqual, fun state outputs _ => reset_armLengthsEqual state outputs,
    ?_⟩
  intro state outputs h
  induction h with
  | init outputs h1 h2 h3 h4 =>
    exact armLengthsEqual_of_length outputs 0 (by rw [h1]; rfl) (by rw [h2]; rfl)
      (by rw [h3]; rfl) (by rw [h4]; rfl)
  | afterCompute h inputs rcl r hr ih =>
    obtain ⟨r2, hr2, hlen⟩ := compute_armLengthsEqual _ inputs rcl _ ih
    rw [hr] at hr2
    cases hr2
    exact hlen
  | afterReset h ih => exact reset_armLengthsEqual _ _
  | afterRelease h ih => exact ih

/-- C23, at outputs that hold an arm command of one joint and a received message with
one trajectory point and nothing in it: the four lengths stay 1. -/
theorem arm_lengths_invariant_witness :
    (∃ r, compute boundState sampleInputs (sampleRcl 0 zeroJointMsg) staleOutputs = some r ∧
      ArmLengthsEqual r.outputs) ∧
    (compute boundState sampleInputs (sampleRcl 0 zeroJointMsg) staleOutputs).map
        (fun r => (r.outputs.armJointNames.length, r.outputs.armPositionCmd.length,
          r.outputs.armVelocityCmd.length, r.outputs.armEffortCmd.length)) =
      some (1, 1, 1, 1) :=
  ⟨(arm_lengths_invariant ℚ).1 boundState sampleInputs (sampleRcl 0 zeroJointMsg) staleOutputs
    (by unfold ArmLengthsEqual; decide), rfl⟩

/-! ## The two variants -/

/-- The check and the bind of the second variant are those of the first. -/
theorem sub_bind_eq {D : Type} (state : NodeState) (inputs : Inputs) (rcl : Rcl D) :
    omnigraph_node_ros.need_recreate state inputs = need_recreate state inputs ∧
    omnigraph_node_ros.checkRecreate state inputs = checkRecreate state inputs ∧
    omnigraph_node_ros.bindSubscriber state inputs rcl = bindSubscriber state inputs rcl :=
  ⟨rfl, rfl, rfl⟩

/-- The three ways a cycle of the second variant can go. -/
theorem sub_compute_cases {D : Type} [Float64 D] (state : NodeState) (inputs : Inputs)
    (rcl : Rcl D) (outputs : Outputs D) :
    (state.sub_created = true ∧ need_recreate state inputs = false ∧
      omnigraph_node_ros.compute state inputs rcl outputs =
        { ret := true
          state := (omnigraph_node_ros.takeMessage state rcl outputs).1
          outputs := (omnigraph_node_ros.takeMessage state rcl outputs).2
          calls := [Call.rcl_take] }) ∨
    ((state.sub_created = false ∨ need_recreate state inputs = true) ∧
      (bindSubscriber (checkRecreate state inputs).1 inputs rcl).1 = true ∧
      omnigraph_node_ros.compute state inputs rcl outputs =
        { ret := true
          state := (omnigraph_node_ros.takeMessage
            (bindSubscriber (checkRecreate state inputs).1 inputs rcl).2.1 rcl outputs).1
          outputs := (omnigraph_node_ros.takeMessage
            (bindSubscriber (checkRecreate state inputs).1 inputs rcl).2.1 rcl outputs).2
          calls := (checkRecreate state inputs).2 ++
            (bindSubscriber (checkRecreate state inputs).1 inputs rcl).2.2 ++
            [Call.rcl_take] }) ∨
    ((state.sub_created = false ∨ need_recreate state inputs = true) ∧
      (bindSubscriber (checkRecreate state inputs).1 inputs rcl).1 = false ∧
      omnigraph_node_ros.compute state inputs rcl outputs =
        { ret := false
          state := (bindSubscriber (checkRecreate state inputs).1 inputs rcl).2.1
          outputs := outputs
          calls := (checkRecreate state inputs).2 ++
            (bindSubscriber (checkRecreate state inputs).1 inputs rcl).2.2 }) := by
  obtain ⟨e1, e2, e3⟩ := sub_bind_eq state inputs rcl
  have e3b := (sub_bind_eq (checkRecreate state inputs).1 inputs rcl).2.2
  by_cases hn : need_recreate state inputs = true
  · right
    have hun : (checkRecreate state inputs).1.sub_created = false :=
      checkRecreate_unbound state inputs (Or.inr hn)
    cases hok : (bindSubscriber (checkRecreate state inputs).1 inputs rcl).1
    · right
      refine ⟨Or.inr hn, rfl, ?_⟩
      unfold omnigraph_node_ros.compute
      rw [e1, e2, hn]
      simp only [hun, e3b]
      rcases hb : bindSubscriber (checkRecreate state inputs).1 inputs rcl with ⟨ok, st, calls⟩
      rw [hb] at hok
      simp only at hok
      subst hok
      simp
    · left
      refine ⟨Or.inr hn, rfl, ?_⟩
      unfold omnigraph_node_ros.compute
      rw [e1, e2, hn]
      simp only [hun, e3b]
      rcases hb : bindSubscriber (checkRecreate state inputs).1 inputs rcl with ⟨ok, st, calls⟩
      rw [hb] at hok
      simp only at hok
      subst hok
      simp
  · simp only [Bool.not_eq_true] at hn
    have hcheck : checkRecreate state inputs = (state, []) := by
      unfold checkRecreate
      simp [hn]
    cases hs : state.sub_created
    · right
      cases hok : (bindSubscriber (checkRecreate state inputs).1 inputs rcl).1
      · right
        refine ⟨Or.inl rfl, rfl, ?_⟩
        unfold omnigraph_node_ros.compute
        rw [e1, e2, hn, hcheck]
        simp only [hs, e3]
        rw [hcheck] at hok
        rcases hb : bindSubscriber state inputs rcl with ⟨ok, st, calls⟩
        rw [hb] at hok
        simp only at hok
        subst hok
        simp
      · left
        refine ⟨Or.inl rfl, rfl, ?_⟩
        unfold omnigraph_node_ros.compute
        rw [e1, e2, hn, hcheck]
        simp only [hs, e3]
        rw [hcheck] at hok
        rcases hb : bindSubscriber state inputs rcl with ⟨ok, st, calls⟩
        rw [hb] at hok
        simp only at hok
        subst hok
        simp
    · left
      refine ⟨rfl, hn, ?_⟩
      unfold omnigraph_node_ros.compute
      rw [e1, e2, hn, hcheck]
      simp [hs]

/-- The arm block of the first variant writes the four arm outputs only. -/
theorem processArmCmd_sameOutsideArm {D : Type} [Zero D] (ros_msg : RobotCmd D)
    (outputs o : Outputs D) (h : processArmCmd ros_msg outputs = some o) :
    SameOutsideArm o outputs := by
  cases hl : ros_msg.arm_cmd.points.getLast? with
  | none =>
    rw [processArmCmd_nil _ _ (List.getLast?_eq_none_iff.mp hl)] at h
    cases h
    exact ⟨rfl, rfl, rfl, rfl, rfl, rfl, rfl⟩
  | some latest_point =>
    rw [processArmCmd_last _ _ latest_point hl] at h
    split at h <;> cases h <;> exact ⟨rfl, rfl, rfl, rfl, rfl, rfl, rfl⟩

/-- The take of the two variants, from outputs that agree outside the arm outputs:
the states are the same, the outputs agree outside the arm outputs, and the second
variant leaves the arm outputs as they were. -/
theorem takeMessage_variants {D : Type} [Float64 D] (state : NodeState) (rcl : Rcl D)
    (outputs1 outputs2 : Outputs D) (p : NodeState × Outputs D)
    (hsame : SameOutsideArm outputs1 outputs2)
    (hp : takeMessage state rcl outputs1 = some p) :
    p.1 = (omnigraph_node_ros.takeMessage state rcl outputs2).1 ∧
    SameOutsideArm p.2 (omnigraph_node_ros.takeMessage state rcl outputs2).2 ∧
    (omnigraph_node_ros.takeMessage state rcl outputs2).2.armJointNames =
      outputs2.armJointNames ∧
    (omnigraph_node_ros.takeMessage state rcl outputs2).2.armPositionCmd =
      outputs2.armPositionCmd ∧
    (omnigraph_node_ros.takeMessage state rcl outputs2).2.armVelocityCmd =
      outputs2.armVelocityCmd ∧
    (omnigraph_node_ros.takeMessage state rcl outputs2).2.armEffortCmd =
      outputs2.armEffortCmd := by
  obtain ⟨s1, s2, s3, s4, s5, s6, s7⟩ := hsame
  by_cases hok : rcl.take = RCL_RET_OK
  · obtain ⟨o, ho, hto⟩ := takeMessage_received state rcl outputs1 hok
    rw [hto] at hp
    cases hp
    have hsub : omnigraph_node_ros.takeMessage state rcl outputs2 =
        ({ state with message_received := true },
          omnigraph_node_ros.decode rcl.ros_msg outputs2) := by
      unfold omnigraph_node_ros.takeMessage
      rw [if_pos hok]
    rw [hsub]
    unfold decode at ho
    obtain ⟨a1, a2, a3, a4, a5, a6, a7⟩ := processArmCmd_sameOutsideArm _ _ _ ho
    refine ⟨rfl, ⟨?_, ?_, ?_, ?_, ?_, ?_, ?_⟩, rfl, rfl, rfl, rfl⟩
    · exact a1
    · exact a2
    · exact a3
    · exact a4
    · exact a5
    · exact a6
    · exact a7
  · rw [takeMessage_none state rcl outputs1 hok] at hp
    cases hp
    have hsub : omnigraph_node_ros.takeMessage state rcl outputs2 =
        (state, { outputs2 with messageReceived := false }) := by
      unfold omnigraph_node_ros.takeMessage
      rw [if_neg hok]
      split <;> rfl
    rw [hsub]
    exact ⟨rfl, ⟨s1, s2, s3, s4, s5, rfl, s7⟩, rfl, rfl, rfl, rfl⟩

/-- C27: from the same state, with the same inputs and the same answers of rcl, and
from outputs that agree outside the four arm outputs, a cycle of the two variants gives
the same return value, the same state (`sub_created`, `context_initialized`,
`message_received` and the stored configuration), the same calls and outputs that agree
outside the four arm outputs (`yaw`, `gripperCmd`, `timestamp`, the two chassis vectors,
`messageReceived`, `execOut`); the second variant leaves the four arm outputs as they
were; and `releaseInstance` is the same function in both. -/
theorem variants_agree {D : Type} [Float64 D] (state : NodeState) (inputs : Inputs)
    (rcl : Rcl D) (outputs1 outputs2 : Outputs D)
    (hsame : SameOutsideArm outputs1 outputs2) :
    (∃ r, compute state inputs rcl outputs1 = some r ∧
      r.ret = (omnigraph_node_ros.compute state inputs rcl outputs2).ret ∧
      r.state = (omnigraph_node_ros.compute state inputs rcl outputs2).state ∧
      r.calls = (omnigraph_node_ros.compute state inputs rcl outputs2).calls ∧
      SameOutsideArm r.outputs (omnigraph_node_ros.compute state inputs rcl outputs2).outputs) ∧
    (omnigraph_node_ros.compute state inputs rcl outputs2).outputs.armJointNames =
      outputs2.armJointNames ∧
    (omnigraph_node_ros.compute state inputs rcl outputs2).outputs.armPositionCmd =
      outputs2.armPositionCmd ∧
    (omnigraph_node_ros.compute state inputs rcl outputs2).outputs.armVelocityCmd =
      outputs2.armVelocityCmd ∧
    (omnigraph_node_ros.compute state inputs rcl outputs2).outputs.armEffortCmd =
      outputs2.armEffortCmd ∧
    omnigraph_node_ros.releaseInstance state = releaseInstance state := by
  obtain ⟨r, hr, hcase⟩ := compute_cases state inputs rcl outputs1
  have hsub := sub_compute_cases state inputs rcl outputs2
  have habs : ∀ {P : Prop}, state.sub_created = true → need_recreate state inputs = false →
      (state.sub_created = false ∨ need_recreate state inputs = true) → P := by
    intro P hs hn hb
    rcases hb with h | h
    · rw [hs] at h
      cases h
    · rw [hn] at h
      cases h
  rcases hcase with ⟨hs, hn, p, hp, rfl⟩ | ⟨hb, hok, p, hp, rfl⟩ | ⟨hb, hok, rfl⟩
  · rcases hsub with ⟨_, _, e⟩ | ⟨hb2, _⟩ | ⟨hb2, _⟩
    · obtain ⟨t1, t2, t3, t4, t5, t6⟩ := takeMessage_variants state rcl _ _ p hsame hp
      rw [e]
      exact ⟨⟨_, hr, rfl, t1, rfl, t2⟩, t3, t4, t5, t6, rfl⟩
    · exact habs hs hn hb2
    · exact habs hs hn hb2
  · rcases hsub with ⟨hs2, hn2, _⟩ | ⟨_, _, e⟩ | ⟨_, hok2, _⟩
    · exact habs hs2 hn2 hb
    · obtain ⟨t1, t2, t3, t4, t5, t6⟩ := takeMessage_variants _ rcl _ _ p hsame hp
      rw [e]
      exact ⟨⟨_, hr, rfl, t1, rfl, t2⟩, t3, t4, t5, t6, rfl⟩
    · rw [hok] at hok2
      cases hok2
  · rcases hsub with ⟨hs2, hn2, _⟩ | ⟨_, hok2, _⟩ | ⟨_, _, e⟩
    · exact habs hs2 hn2 hb
    · rw [hok] at hok2
      cases hok2
    · rw [e]
      exact ⟨⟨_, hr, rfl, rfl, rfl, hsame⟩, rfl, rfl, rfl, rfl, rfl⟩

/-- C27, at a bound node that receives the message of the padding scenario: the two
variants agree outside the arm outputs; the first writes the arm command of the message
and the second keeps the arm outputs it had. -/
theorem variants_agree_witness :
    ((∃ r, compute boundState sampleInputs (sampleRcl 0 paddingMsg) staleOutputs = some r ∧
      r.ret = (omnigraph_node_ros.compute boundState sampleInputs (sampleRcl 0 paddingMsg)
        staleOutputs).ret ∧
      r.state = (omnigraph_node_ros.compute boundState sampleInputs (sampleRcl 0 paddingMsg)
        staleOutputs).state ∧
      r.calls = (omnigraph_node_ros.compute boundState sampleInputs (sampleRcl 0 paddingMsg)
        staleOutputs).calls ∧
      SameOutsideArm r.outputs
        (omnigraph_node_ros.compute boundState sampleInputs (sampleRcl 0 paddingMsg)
          staleOutputs).outputs) ∧
    (omnigraph_node_ros.compute boundState sampleInputs (sampleRcl 0 paddingMsg)
      staleOutputs).outputs.armJointNames = staleOutputs.armJointNames ∧
    (omnigraph_node_ros.compute boundState sampleInputs (sampleRcl 0 paddingMsg)
      staleOutputs).outputs.armPositionCmd = staleOutputs.armPositionCmd ∧
    (omnigraph_node_ros.compute boundState sampleInputs (sampleRcl 0 paddingMsg)
      staleOutputs).outputs.armVelocityCmd = staleOutputs.armVelocityCmd ∧
    (omnigraph_node_ros.compute boundState sampleInputs (sampleRcl 0 paddingMsg)
      staleOutputs).outputs.armEffortCmd = staleOutputs.armEffortCmd ∧
    omnigraph_node_ros.releaseInstance boundState = releaseInstance boundState) ∧
    (compute boundState sampleInputs (sampleRcl 0 paddingMsg) staleOutputs).map
        (fun r => (r.outputs.yaw, r.outputs.armJointNames, r.outputs.armPositionCmd)) =
      some (2, ["a", "b"], [1, 0]) ∧
    ((omnigraph_node_ros.compute boundState sampleInputs (sampleRcl 0 paddingMsg)
        staleOutputs).outputs.yaw,
      (omnigraph_node_ros.compute boundState sampleInputs (sampleRcl 0 paddingMsg)
        staleOutputs).outputs.armJointNames,
      (omnigraph_node_ros.compute boundState sampleInputs (sampleRcl 0 paddingMsg)
        staleOutputs).outputs.armPositionCmd) = (2, ["old"], [7]) :=
  ⟨variants_agree boundState sampleInputs (sampleRcl 0 paddingMsg) staleOutputs staleOutputs
    ⟨rfl, rfl, rfl, rfl, rfl, rfl, rfl⟩, rfl, rfl⟩

end ROS2SubscribeRobotCmdNode
